import Mathlib

/-!
# Verification of the solarize result-persistence and analytics core

A shallow embedding, in Lean 4, of the `DataManager.save_modelchain_result` /
`fetch_modelchain_result` round trip (`data_factory/database/manager.py`), of
the timeseries normalizer (`data_factory/pvlib/plots.py`,
`data_factory/pvlib/utils.py`), and of the three analytics engines
(`data_factory/pvlib/analyzer.py`, `seasonal_analyzer.py`,
`financial_analysis.py`).

Conventions of the embedding:
* timestamps are natural numbers (`utc_time` values only need an order);
* numeric cell values are rationals; a pandas cell that may be `NaN`/`NaT`
  is a `PCell`; a stored SQL cell is an `Option ℚ` (with `none` = SQL NULL);
* a metric table is a list of rows `SRow`; the PostgreSQL
  `ON CONFLICT (result_id, utc_time, array_name) DO NOTHING` insert is
  `insertRow` (two NULL `array_name`s never conflict, matching PostgreSQL's
  NULLS DISTINCT unique-index semantics);
* the fetch reads `SELECT *`, so `fetch_timeseries` takes the table schema's
  data columns and a stored row shows NULL in every schema column its INSERT
  column list omitted (`storedCell`); the `ac_aoi` schema is `ac_aoi_cols`;
* fallible Python code is `Except String` (the string names the Python
  exception class).
-/

namespace Solarize

/-- A raw pandas cell before serialization: either a numeric value or NaN/NaT. -/
inductive PCell where
  | val (q : ℚ)
  | nan
  deriving DecidableEq, Repr

/-- `manager.py` lines 91-96: every column value is coerced to a native type,
with `None if pd.isna(x) else x` — NaN/NaT becomes SQL NULL, any other value is
kept (`.item()` is the numpy→python identity on the numeric value). -/
def serializeCell : PCell → Option ℚ
  | .val q => some q
  | .nan => none

/-- One stored row of a metric table: the key columns `result_id`, `utc_time`,
`array_name` (NULL when the array-name map had no entry for the index), and the
metric's data columns as (column name, value) pairs. -/
structure SRow where
  rid : ℕ
  t : ℕ
  aname : Option String
  cells : List (String × Option ℚ)
  deriving DecidableEq, Repr

/-- PostgreSQL conflict test for the unique key `(result_id, utc_time,
array_name)`: NULL `array_name`s are distinct, so a row with a NULL name never
conflicts with any row. -/
def keyConflict (a b : SRow) : Bool :=
  a.rid = b.rid && a.t = b.t &&
    (match a.aname, b.aname with
     | some x, some y => x = y
     | _, _ => false)

/-- `INSERT ... ON CONFLICT (result_id, utc_time, array_name) DO NOTHING`
for a single row (`manager.py` lines 100-105): the row is appended unless an
existing row holds the same key. -/
def insertRow (tbl : List SRow) (r : SRow) : List SRow :=
  if tbl.any (fun r0 => keyConflict r0 r) then tbl else tbl ++ [r]

/-- A concrete non-NULL key triple. -/
structure Key where
  rid : ℕ
  t : ℕ
  aname : String
  deriving DecidableEq, Repr

/-- The row matches the (non-NULL) key triple. -/
def hasKey (r : SRow) (k : Key) : Bool :=
  r.rid = k.rid && r.t = k.t && r.aname = some k.aname

/-- The row carries exactly the key `k` in its key columns. -/
def keyedRow (k : Key) (cells : List (String × Option ℚ)) : SRow :=
  ⟨k.rid, k.t, some k.aname, cells⟩

lemma keyConflict_keyedRow (k : Key) (c c' : List (String × Option ℚ)) :
    keyConflict (keyedRow k c) (keyedRow k c') = true := by
  simp [keyConflict, keyedRow]

lemma hasKey_keyedRow (k : Key) (c : List (String × Option ℚ)) :
    hasKey (keyedRow k c) k = true := by
  simp [hasKey, keyedRow]

lemma insertRow_of_conflict {tbl : List SRow} {r : SRow}
    (h : tbl.any (fun r0 => keyConflict r0 r) = true) :
    insertRow tbl r = tbl := by
  simp [insertRow, h]

lemma insertRow_of_no_conflict {tbl : List SRow} {r : SRow}
    (h : tbl.any (fun r0 => keyConflict r0 r) = false) :
    insertRow tbl r = tbl ++ [r] := by
  simp [insertRow, h]

/-- An input pandas DataFrame for one array of one metric: a list of column
names and the indexed rows (timestamp, cell per column). -/
structure RawFrame where
  cols : List String
  rows : List (ℕ × List PCell)
  deriving DecidableEq, Repr

/-- One record built by `insert_timeseries` (`manager.py` lines 86-99): the key
columns `result_id`, `utc_time`, `array_name` are attached and every data cell
is serialized with NaN/NaT mapped to NULL. -/
def frameRow (rid : ℕ) (aname : Option String) (cols : List String)
    (tc : ℕ × List PCell) : SRow :=
  ⟨rid, tc.1, aname, cols.zip (tc.2.map serializeCell)⟩

/-- All records of one array's DataFrame. -/
def frameRows (rid : ℕ) (aname : Option String) (f : RawFrame) : List SRow :=
  f.rows.map (frameRow rid aname f.cols)

/-- Bulk upsert of one array's DataFrame (`execute_values` with
`ON CONFLICT ... DO NOTHING`). -/
def insertFrame (tbl : List SRow) (rid : ℕ) (aname : Option String)
    (f : RawFrame) : List SRow :=
  (frameRows rid aname f).foldl insertRow tbl

/-- `insert_timeseries(df, table_name)` (`manager.py` lines 81-105):
`dfs = df if isinstance(df, tuple) else (df,)`; then for each `idx, d` in
`enumerate(dfs)`: skip `None`, tag rows with `array_name =
array_names.get(str(idx))` (modelled as `names idx`), serialize and upsert. -/
def insert_timeseries (tbl : List SRow) (rid : ℕ) (names : ℕ → Option String)
    (dfs : List (Option RawFrame)) : List SRow :=
  dfs.enum.foldl
    (fun acc p =>
      match p.2 with
      | none => acc
      | some f => insertFrame acc rid (names p.1) f)
    tbl

/-- A fetched table or a tuple of per-array tables (`tuple(array_groups) if
len(array_groups) > 1 else array_groups[0]`). -/
inductive OneOrMany (α : Type) where
  | one (a : α)
  | many (l : List α)
  deriving DecidableEq, Repr

/-- A reconstructed DataFrame on fetch: `utc_time` is the index, the
`result_id` and `array_name` columns are dropped. -/
structure QFrame where
  cols : List String
  rows : List (ℕ × List (Option ℚ))
  deriving DecidableEq, Repr

/-- The serialized image of an input DataFrame: same columns and timestamps,
cells with NaN/NaT replaced by NULL. -/
def serFrame (f : RawFrame) : QFrame :=
  ⟨f.cols, f.rows.map (fun tc => (tc.1, tc.2.map serializeCell))⟩

/-- Sort key for `array_name` in SQL `ORDER BY ... array_name`: names
ascending lexicographically, NULLs last (PostgreSQL default for ascending
order). -/
def anameKey (a : Option String) : ℕ ×ₗ String :=
  toLex (match a with | some s => (0, s) | none => (1, ""))

/-- Sort key for SQL `ORDER BY utc_time, array_name`. -/
def rowKey (r : SRow) : ℕ ×ₗ (ℕ ×ₗ String) :=
  toLex (r.t, anameKey r.aname)

/-- Row comparison of `ORDER BY utc_time, array_name`. -/
def rowLe (a b : SRow) : Prop :=
  rowKey a ≤ rowKey b

instance : DecidableRel rowLe := fun a b =>
  inferInstanceAs (Decidable (rowKey a ≤ rowKey b))

instance : IsTotal SRow rowLe := ⟨fun a b => le_total (rowKey a) (rowKey b)⟩

instance : IsTrans SRow rowLe := ⟨fun _ _ _ hab hbc => le_trans hab hbc⟩

/-- `SELECT * FROM t WHERE result_id=%s ORDER BY utc_time, array_name`. -/
def ridRows (tbl : List SRow) (rid : ℕ) : List SRow :=
  List.insertionSort rowLe (tbl.filter (fun r => r.rid = rid))

/-- The data columns of the `ac_aoi` table. Both INSERT column lists of
`save_modelchain_result` target this one table — `ac` at `manager.py` lines
112/117/119 and `aoi`, `aoi_modifier` at lines 128-132 — and
`analytics/views.py` line 635 lists exactly these three columns, so the
table's schema carries all of them and `SELECT *` returns all of them. -/
def ac_aoi_cols : List String := ["ac", "aoi", "aoi_modifier"]

/-- The value `SELECT *` sees in data column `c` of a stored row: the value
the INSERT column list supplied, or SQL NULL when the write omitted the
column. -/
def storedCell (r : SRow) (c : String) : Option ℚ :=
  match r.cells.find? (fun p => p.1 = c) with
  | some p => p.2
  | none => none

/-- One `groupby("array_name")` group turned into a DataFrame. The fetch reads
`SELECT *`, so every data column of the table's schema comes back (NULL-filled
where the write omitted the column); `utc_time` becomes the index and the
`result_id` and `array_name` columns are dropped. -/
def groupFrame (schema : List String) (rows : List SRow) : QFrame :=
  ⟨schema, rows.map (fun r => (r.t, schema.map (storedCell r)))⟩

/-- `fetch_timeseries(table_name)` (`manager.py` lines 189-198): `SELECT *`
of the rows for `result_id` ordered by `(utc_time, array_name)` — the
columns are the table schema's data columns, not the columns some insert
wrote; `None` when empty; group by `array_name` (pandas drops NULL keys and
sorts the group keys); return the single group, a tuple when more than one
group, and raise `IndexError` on `array_groups[0]` when every key was NULL. -/
def fetch_timeseries (schema : List String) (tbl : List SRow) (rid : ℕ) :
    Except String (Option (OneOrMany QFrame)) :=
  let rows := ridRows tbl rid
  if rows.isEmpty then .ok none
  else
    let names := List.insertionSort (· ≤ ·) (rows.filterMap (fun r => r.aname)).dedup
    let groups := names.map (fun a => groupFrame schema (rows.filter (fun r => r.aname = some a)))
    match groups with
    | [] => .error "IndexError: list index out of range"
    | [g] => .ok (some (.one g))
    | gs => .ok (some (.many gs))

/-- The reconstruction rule of `fetch_timeseries`'s tail: a single group is
returned as a single table, more than one group as a tuple. -/
def reassemble (gs : List QFrame) : Option (OneOrMany QFrame) :=
  match gs with
  | [] => none
  | [g] => some (.one g)
  | gs => some (.many gs)

/-- A well-formed input DataFrame: nonempty, strictly increasing timestamp
index, rectangular (every row has one cell per column), and distinct column
names. -/
def FrameOK (f : RawFrame) : Prop :=
  f.rows ≠ [] ∧ (f.rows.map Prod.fst).Pairwise (· < ·) ∧
    (∀ tc ∈ f.rows, tc.2.length = f.cols.length) ∧ f.cols.Nodup

instance : DecidablePred FrameOK := fun f => by
  unfold FrameOK
  infer_instance

/-- The rows written by one `save` call for one metric, with the per-array
label already resolved: array `i` of the tuple contributes `frameRows` tagged
with its label. -/
def savedRowsZ (rid : ℕ) : List (String × RawFrame) → List SRow
  | [] => []
  | (a, f) :: rest => frameRows rid (some a) f ++ savedRowsZ rid rest

end Solarize

namespace Solarize

lemma rowLe_t_le {a b : SRow} (h : rowLe a b) : a.t ≤ b.t := by
  unfold rowLe rowKey at h
  rcases (Prod.Lex.le_iff _ _).mp h with h | ⟨h, _⟩
  · exact le_of_lt h
  · exact le_of_eq h

/-- Two lists that are permutations of each other, the first sorted by the
total row order and the second strictly sorted by timestamp, are equal. -/
lemma perm_sorted_strictT_eq : ∀ {l l' : List SRow}, l.Perm l' →
    l.Pairwise rowLe → l'.Pairwise (fun a b => a.t < b.t) → l = l'
  | [], l', hp, _, _ => (hp.nil_eq).symm ▸ rfl
  | a :: tl, l', hp, hs, hs' => by
    cases l' with
    | nil => exact absurd hp.symm (by simp)
    | cons b tl' =>
      have hab : a = b := by
        by_contra hne
        have ha : a ∈ b :: tl' := hp.mem_iff.mp (by simp)
        have hbin : b ∈ a :: tl := hp.mem_iff.mpr (by simp)
        have h1 : b.t < a.t := by
          rcases List.mem_cons.mp ha with h | h
          · exact absurd h hne
          · exact List.rel_of_pairwise_cons hs' h
        have h2 : a.t ≤ b.t := by
          rcases List.mem_cons.mp hbin with h | h
          · exact le_of_eq (by rw [h])
          · exact rowLe_t_le (List.rel_of_pairwise_cons hs h)
        omega
      subst hab
      have htl : tl.Perm tl' := hp.cons_inv
      have := perm_sorted_strictT_eq htl hs.of_cons hs'.of_cons
      rw [this]

/-- Two strictly sorted lists with the same members are equal. -/
lemma eq_of_pairwise_lt_of_mem_iff {α : Type} [LinearOrder α] :
    ∀ {l l' : List α}, l.Pairwise (· < ·) → l'.Pairwise (· < ·) →
      (∀ a, a ∈ l ↔ a ∈ l') → l = l'
  | [], [], _, _, _ => rfl
  | [], b :: tl', _, _, hm => absurd ((hm b).mpr (by simp)) (by simp)
  | a :: tl, [], _, _, hm => absurd ((hm a).mp (by simp)) (by simp)
  | a :: tl, b :: tl', hs, hs', hm => by
    have hab : a = b := by
      rcases List.mem_cons.mp ((hm a).mp (by simp)) with h | h
      · exact h
      · rcases List.mem_cons.mp ((hm b).mpr (by simp)) with h' | h'
        · exact h'.symm
        · exact absurd (lt_trans (List.rel_of_pairwise_cons hs h')
            (List.rel_of_pairwise_cons hs' h)) (lt_irrefl a)
    subst hab
    have hm' : ∀ x, x ∈ tl ↔ x ∈ tl' := by
      intro x
      constructor
      · intro hx
        rcases List.mem_cons.mp ((hm x).mp (List.mem_cons_of_mem a hx)) with h | h
        · exact absurd (h ▸ List.rel_of_pairwise_cons hs hx) (lt_irrefl a)
        · exact h
      · intro hx
        rcases List.mem_cons.mp ((hm x).mpr (List.mem_cons_of_mem a hx)) with h | h
        · exact absurd (h ▸ List.rel_of_pairwise_cons hs' hx) (lt_irrefl a)
        · exact h
    rw [eq_of_pairwise_lt_of_mem_iff hs.of_cons hs'.of_cons hm']

/-- Folding the conflict-ignoring insert over rows that conflict neither with
the table nor with each other appends them all. -/
lemma foldl_insertRow_append : ∀ (rows tbl : List SRow),
    (∀ r ∈ rows, ∀ r0 ∈ tbl, keyConflict r0 r = false) →
    rows.Pairwise (fun a b => keyConflict a b = false) →
    rows.foldl insertRow tbl = tbl ++ rows
  | [], tbl, _, _ => by simp
  | r :: rest, tbl, h1, h2 => by
    have hany : tbl.any (fun r0 => keyConflict r0 r) = false := by
      rw [List.any_eq_false]
      intro r0 hr0
      simp [h1 r (by simp) r0 hr0]
    have hstep : insertRow tbl r = tbl ++ [r] := insertRow_of_no_conflict hany
    have hrec := foldl_insertRow_append rest (tbl ++ [r])
      (by
        intro x hx r0 hr0
        rcases List.mem_append.mp hr0 with h | h
        · exact h1 x (by simp [hx]) r0 h
        · rw [List.mem_singleton.mp h]
          exact List.rel_of_pairwise_cons h2 hx)
      h2.of_cons
    simp only [List.foldl_cons, hstep, hrec]
    simp

lemma keyConflict_false_of_rid {a b : SRow} (h : a.rid ≠ b.rid) :
    keyConflict a b = false := by
  simp [keyConflict, h]

lemma keyConflict_false_of_t {a b : SRow} (h : a.t ≠ b.t) :
    keyConflict a b = false := by
  simp [keyConflict, h]

lemma keyConflict_false_of_name {a b : SRow} {x y : String}
    (ha : a.aname = some x) (hb : b.aname = some y) (h : x ≠ y) :
    keyConflict a b = false := by
  simp [keyConflict, ha, hb, h]

lemma rid_of_mem_savedRowsZ {rid : ℕ} :
    ∀ {zs : List (String × RawFrame)} {r : SRow},
      r ∈ savedRowsZ rid zs → r.rid = rid
  | [], _, h => absurd h (by simp [savedRowsZ])
  | (a, f) :: rest, r, h => by
    rcases List.mem_append.mp h with h | h
    · obtain ⟨tc, _, htc⟩ := List.mem_map.mp h
      rw [← htc]; rfl
    · exact rid_of_mem_savedRowsZ h

lemma pairwise_conflictFree_frameRows {rid : ℕ} {an : Option String}
    {f : RawFrame} (hok : FrameOK f) :
    (frameRows rid an f).Pairwise (fun a b => keyConflict a b = false) := by
  unfold frameRows
  rw [List.pairwise_map]
  have hts : f.rows.Pairwise (fun x y => x.1 < y.1) := by
    have := hok.2.1
    rwa [List.pairwise_map] at this
  exact hts.imp (fun h => keyConflict_false_of_t (Nat.ne_of_lt h))

lemma aname_of_mem_savedRowsZ {rid : ℕ} :
    ∀ {zs : List (String × RawFrame)} {r : SRow},
      r ∈ savedRowsZ rid zs → ∃ q ∈ zs, r.aname = some q.1
  | [], _, h => absurd h (by simp [savedRowsZ])
  | (a, f) :: rest, r, h => by
    rcases List.mem_append.mp h with h | h
    · obtain ⟨tc, _, htc⟩ := List.mem_map.mp h
      exact ⟨(a, f), by simp, by rw [← htc]; rfl⟩
    · obtain ⟨q, hq, hqe⟩ := aname_of_mem_savedRowsZ h
      exact ⟨q, List.mem_cons_of_mem _ hq, hqe⟩

lemma pairwise_conflictFree_savedRowsZ {rid : ℕ} :
    ∀ {zs : List (String × RawFrame)},
      zs.Pairwise (fun p q => p.1 ≠ q.1) → (∀ p ∈ zs, FrameOK p.2) →
      (savedRowsZ rid zs).Pairwise (fun a b => keyConflict a b = false)
  | [], _, _ => by simp [savedRowsZ]
  | (a, f) :: rest, hnd, hok => by
    show (frameRows rid (some a) f ++ savedRowsZ rid rest).Pairwise _
    rw [List.pairwise_append]
    refine ⟨pairwise_conflictFree_frameRows (hok (a, f) (by simp)),
      pairwise_conflictFree_savedRowsZ hnd.of_cons
        (fun p hp => hok p (List.mem_cons_of_mem _ hp)), ?_⟩
    intro x hx y hy
    obtain ⟨tc, _, htc⟩ := List.mem_map.mp hx
    have hxn : x.aname = some a := by rw [← htc]; rfl
    obtain ⟨q, hq, hyq⟩ := aname_of_mem_savedRowsZ hy
    exact keyConflict_false_of_name hxn hyq
      (List.rel_of_pairwise_cons hnd hq)

/-- `insert_timeseries` over a tuple of arrays whose labels resolve to the
list `ns` is the plain fold of the conflict-ignoring insert over the tagged
rows. -/
lemma insert_timeseries_foldl (rid : ℕ) (names : ℕ → Option String) :
    ∀ (zs : List (String × RawFrame)) (i : ℕ) (tbl : List SRow),
    (∀ j (h : j < zs.length), names (i + j) = some (zs.get ⟨j, h⟩).1) →
    (((zs.map Prod.snd).map some).enumFrom i).foldl
      (fun acc p =>
        match p.2 with
        | none => acc
        | some f => insertFrame acc rid (names p.1) f) tbl
      = (savedRowsZ rid zs).foldl insertRow tbl
  | [], _, _, _ => rfl
  | (a, f) :: rest, i, tbl, hn => by
    have h0 : names i = some a := by simpa using hn 0 (by simp)
    show (((i, some f) :: ((rest.map Prod.snd).map some).enumFrom (i + 1)).foldl _ tbl) = _
    rw [List.foldl_cons]
    show (((rest.map Prod.snd).map some).enumFrom (i + 1)).foldl _
        (insertFrame tbl rid (names i) f) = _
    rw [h0]
    have hrec := insert_timeseries_foldl rid names rest (i + 1)
      (insertFrame tbl rid (some a) f)
      (by
        intro j h
        have := hn (j + 1) (by simpa using Nat.succ_lt_succ h)
        simpa [Nat.add_assoc, Nat.add_comm 1 j] using this)
    rw [hrec]
    show (savedRowsZ rid rest).foldl insertRow
        ((frameRows rid (some a) f).foldl insertRow tbl) = _
    rw [← List.foldl_append]
    rfl

/-- A fresh-id save into a table appends exactly the tagged serialized rows:
no `ON CONFLICT` clause fires when the `result_id` is new, the per-array
labels are distinct and each array's timestamps are distinct. -/
lemma insert_timeseries_eq_append (tbl : List SRow) (rid : ℕ)
    (names : ℕ → Option String) (ns : List String) (frames : List RawFrame)
    (hlen : ns.length = frames.length)
    (hname : ∀ j (h : j < ns.length), names j = some (ns.get ⟨j, h⟩))
    (hfresh : ∀ r ∈ tbl, r.rid ≠ rid)
    (hnodup : ns.Pairwise (· ≠ ·))
    (hok : ∀ f ∈ frames, FrameOK f) :
    insert_timeseries tbl rid names (frames.map some) =
      tbl ++ savedRowsZ rid (ns.zip frames) := by
  have hsnd : (ns.zip frames).map Prod.snd = frames :=
    List.map_snd_zip ns frames (le_of_eq hlen.symm)
  have hzlen : (ns.zip frames).length = ns.length := by
    rw [List.length_zip, hlen, Nat.min_self]
  have h1 : insert_timeseries tbl rid names (frames.map some) =
      (savedRowsZ rid (ns.zip frames)).foldl insertRow tbl := by
    unfold insert_timeseries
    conv_lhs => rw [← hsnd]
    exact insert_timeseries_foldl rid names (ns.zip frames) 0 tbl
      (by
        intro j h
        have hj : j < ns.length := hzlen ▸ h
        rw [Nat.zero_add]
        rw [hname j hj]
        congr 1
        have : (ns.zip frames).get ⟨j, h⟩ =
            (ns.get ⟨j, hj⟩, frames.get ⟨j, hlen ▸ hj⟩) := by
          simp [List.get_eq_getElem, List.getElem_zip]
        rw [this])
  rw [h1]
  apply foldl_insertRow_append
  · intro r hr r0 hr0
    have := rid_of_mem_savedRowsZ hr
    exact keyConflict_false_of_rid (by rw [this]; exact hfresh r0 hr0)
  · apply pairwise_conflictFree_savedRowsZ
    · have : ((ns.zip frames).map Prod.fst).Pairwise (· ≠ ·) := by
        rw [List.map_fst_zip ns frames (le_of_eq hlen)]
        exact hnodup
      rwa [List.pairwise_map] at this
    · intro p hp
      exact hok p.2 (List.of_mem_zip hp).2

lemma exists_row_savedRowsZ {rid : ℕ} :
    ∀ {zs : List (String × RawFrame)} {q : String × RawFrame},
      q ∈ zs → q.2.rows ≠ [] → ∃ r ∈ savedRowsZ rid zs, r.aname = some q.1
  | [], _, hq, _ => absurd hq (by simp)
  | (a, f) :: rest, q, hq, hne => by
    rcases List.mem_cons.mp hq with h | h
    · subst h
      cases hrows : f.rows with
      | nil => exact absurd hrows hne
      | cons tc tcs =>
        refine ⟨frameRow rid (some a) f.cols tc, ?_, rfl⟩
        show _ ∈ frameRows rid (some a) f ++ _
        apply List.mem_append_left
        unfold frameRows
        rw [hrows]
        exact List.mem_map_of_mem _ (by simp)
    · obtain ⟨r, hr, hre⟩ := exists_row_savedRowsZ h hne
      refine ⟨r, ?_, hre⟩
      show _ ∈ frameRows rid (some a) f ++ _
      exact List.mem_append_right _ hr

lemma mem_filterMap_aname_savedRowsZ {rid : ℕ}
    {zs : List (String × RawFrame)} (hok : ∀ p ∈ zs, FrameOK p.2) (x : String) :
    x ∈ (savedRowsZ rid zs).filterMap (fun r => r.aname) ↔ ∃ q ∈ zs, x = q.1 := by
  rw [List.mem_filterMap]
  constructor
  · rintro ⟨r, hr, hrx⟩
    obtain ⟨q, hq, hqe⟩ := aname_of_mem_savedRowsZ hr
    exact ⟨q, hq, by rw [hqe] at hrx; exact (Option.some_inj.mp hrx).symm⟩
  · rintro ⟨q, hq, rfl⟩
    obtain ⟨r, hr, hre⟩ := exists_row_savedRowsZ hq ((hok q hq).1)
    exact ⟨r, hr, hre⟩

lemma filter_name_frameRows_self (rid : ℕ) (a : String) (f : RawFrame) :
    (frameRows rid (some a) f).filter (fun r => r.aname = some a) =
      frameRows rid (some a) f := by
  rw [List.filter_eq_self]
  intro r hr
  obtain ⟨tc, _, htc⟩ := List.mem_map.mp hr
  rw [← htc]
  simp [frameRow]

lemma filter_name_frameRows_ne (rid : ℕ) (a b : String) (hab : b ≠ a)
    (f : RawFrame) :
    (frameRows rid (some b) f).filter (fun r => r.aname = some a) = [] := by
  rw [List.filter_eq_nil_iff]
  intro r hr
  obtain ⟨tc, _, htc⟩ := List.mem_map.mp hr
  rw [← htc]
  simp [frameRow, hab]

/-- Filtering the saved rows by one of the (pairwise distinct) array labels
recovers exactly that array's tagged rows, in write order. -/
lemma filter_name_savedRowsZ {rid : ℕ} :
    ∀ {zs : List (String × RawFrame)} {a : String} {f : RawFrame},
      zs.Pairwise (fun p q => p.1 ≠ q.1) → (a, f) ∈ zs →
      (savedRowsZ rid zs).filter (fun r => r.aname = some a) =
        frameRows rid (some a) f
  | [], _, _, _, hm => absurd hm (by simp)
  | (b, g) :: rest, a, f, hnd, hm => by
    show ((frameRows rid (some b) g ++ savedRowsZ rid rest).filter _) = _
    rw [List.filter_append]
    rcases List.mem_cons.mp hm with h | h
    · have hab : a = b := congrArg Prod.fst h
      have hfg : f = g := congrArg Prod.snd h
      subst hab
      subst hfg
      rw [filter_name_frameRows_self]
      have : (savedRowsZ rid rest).filter (fun r => r.aname = some a) = [] := by
        rw [List.filter_eq_nil_iff]
        intro r hr
        obtain ⟨q, hq, hqe⟩ := aname_of_mem_savedRowsZ hr
        have hne : a ≠ q.1 := List.rel_of_pairwise_cons hnd hq
        simp [hqe, Ne.symm hne]
      rw [this, List.append_nil]
    · have hba : b ≠ a := by
        have : b ≠ ((a, f) : String × RawFrame).1 :=
          List.rel_of_pairwise_cons hnd h
        simpa using this
      rw [filter_name_frameRows_ne rid a b hba,
        filter_name_savedRowsZ hnd.of_cons h, List.nil_append]

lemma pairwise_t_lt_frameRows {rid : ℕ} {an : Option String} {f : RawFrame}
    (hok : FrameOK f) :
    (frameRows rid an f).Pairwise (fun a b => a.t < b.t) := by
  unfold frameRows
  rw [List.pairwise_map]
  have hts : f.rows.Pairwise (fun x y => x.1 < y.1) := by
    have := hok.2.1
    rwa [List.pairwise_map] at this
  exact hts.imp (fun h => h)

lemma storedCell_cons_ne (rid t : ℕ) (an : Option String)
    (cells : List (String × Option ℚ)) (c x : String) (v : Option ℚ)
    (h : ¬ c = x) :
    storedCell ⟨rid, t, an, (c, v) :: cells⟩ x =
      storedCell ⟨rid, t, an, cells⟩ x := by
  unfold storedCell
  have : ((c, v) :: cells).find? (fun p => p.1 = x) =
      cells.find? (fun p => p.1 = x) := by
    rw [List.find?_cons_of_neg]
    simpa using h
  rw [this]

/-- Reading the schema columns back out of a row whose cells are exactly the
schema zipped with values recovers the values. -/
lemma map_storedCell_zip (rid t : ℕ) (an : Option String) :
    ∀ (cols : List String) (vals : List (Option ℚ)), cols.Nodup →
      vals.length = cols.length →
      cols.map (storedCell ⟨rid, t, an, cols.zip vals⟩) = vals
  | [], [], _, _ => rfl
  | [], v :: vs, _, hlen => absurd hlen (by simp)
  | c :: cs, [], _, hlen => absurd hlen (by simp)
  | c :: cs, v :: vs, hnd, hlen => by
    simp only [List.zip_cons_cons, List.map_cons]
    congr 1
    · unfold storedCell
      have : (((c, v) :: cs.zip vs).find? (fun p => p.1 = c)) = some (c, v) := by
        rw [List.find?_cons_of_pos]
        simp
      rw [this]
    · have hcn : c ∉ cs := (List.nodup_cons.mp hnd).1
      calc cs.map (storedCell ⟨rid, t, an, (c, v) :: cs.zip vs⟩)
          = cs.map (storedCell ⟨rid, t, an, cs.zip vs⟩) := by
            apply List.map_congr_left
            intro x hx
            exact storedCell_cons_ne rid t an (cs.zip vs) c x v
              (fun he => hcn (he ▸ hx))
        _ = vs := map_storedCell_zip rid t an cs vs
              (List.nodup_cons.mp hnd).2 (by simpa using hlen)

/-- Regrouping the tagged rows of one array reconstructs its serialized
DataFrame when the array's columns are exactly the table schema's data
columns: `SELECT *` then reads back precisely the serialized cells. -/
lemma groupFrame_frameRows {rid : ℕ} {an : Option String} {f : RawFrame}
    (hok : FrameOK f) :
    groupFrame f.cols (frameRows rid an f) = serFrame f := by
  unfold groupFrame serFrame frameRows
  congr 1
  rw [List.map_map]
  apply List.map_congr_left
  intro x hx
  show (x.1, f.cols.map (storedCell (frameRow rid an f.cols x))) = _
  congr 1
  exact map_storedCell_zip rid x.1 an f.cols (x.2.map serializeCell)
    hok.2.2.2 (by rw [List.length_map]; exact hok.2.2.1 x hx)

lemma savedRowsZ_ne_nil {rid : ℕ} {a : String} {f : RawFrame}
    {rest : List (String × RawFrame)} (hne : f.rows ≠ []) :
    savedRowsZ rid ((a, f) :: rest) ≠ [] := by
  show frameRows rid (some a) f ++ savedRowsZ rid rest ≠ []
  cases hrows : f.rows with
  | nil => exact absurd hrows hne
  | cons tc tcs =>
    unfold frameRows
    rw [hrows]
    simp

lemma match_reassemble (gs : List QFrame) (h : gs ≠ []) :
    (match gs with
     | [] => (Except.error "IndexError: list index out of range" :
         Except String (Option (OneOrMany QFrame)))
     | [g] => Except.ok (some (OneOrMany.one g))
     | gs => Except.ok (some (OneOrMany.many gs))) =
      Except.ok (reassemble gs) := by
  match gs with
  | [] => exact absurd rfl h
  | [g] => rfl
  | g :: g' :: t => rfl

/-- Round trip of one metric through a fresh-id save and a fetch: with
pairwise-distinct, index-ordered array labels, well-formed per-array
DataFrames whose columns are exactly the table schema's data columns, and a
single insert for the `result_id`, fetching reconstructs the serialized input
frames, a single array as a single table and `N > 1` arrays as an
`N`-tuple. -/
lemma fetch_insert_timeseries_roundtrip
    (schema : List String) (tbl : List SRow) (rid : ℕ)
    (names : ℕ → Option String)
    (ns : List String) (frames : List RawFrame)
    (hlen : ns.length = frames.length)
    (hname : ∀ j (h : j < ns.length), names j = some (ns.get ⟨j, h⟩))
    (hfresh : ∀ r ∈ tbl, r.rid ≠ rid)
    (hsorted : ns.Pairwise (· < ·))
    (hok : ∀ f ∈ frames, FrameOK f)
    (hcols : ∀ f ∈ frames, f.cols = schema)
    (hne : frames ≠ []) :
    fetch_timeseries schema (insert_timeseries tbl rid names (frames.map some))
      rid = .ok (reassemble (frames.map serFrame)) := by
  have hnodup : ns.Pairwise (· ≠ ·) := hsorted.imp ne_of_lt
  have hzs_nd : (ns.zip frames).Pairwise (fun p q => p.1 ≠ q.1) := by
    have : ((ns.zip frames).map Prod.fst).Pairwise (· ≠ ·) := by
      rw [List.map_fst_zip ns frames (le_of_eq hlen)]
      exact hnodup
    rwa [List.pairwise_map] at this
  have hzok : ∀ p ∈ ns.zip frames, FrameOK p.2 :=
    fun p hp => hok p.2 (List.of_mem_zip hp).2
  have hziplen : (ns.zip frames).length = ns.length := by
    rw [List.length_zip, hlen, Nat.min_self]
  have hzipmem : ∀ (i : ℕ) (hi : i < ns.length),
      (ns[i], frames[i]) ∈ ns.zip frames := by
    intro i hi
    have hiz : i < (ns.zip frames).length := by rw [hziplen]; exact hi
    have hmm := List.getElem_mem hiz
    rwa [List.getElem_zip] at hmm
  have hsave := insert_timeseries_eq_append tbl rid names ns frames hlen hname
    hfresh hnodup hok
  rw [hsave]
  have hfilter : (tbl ++ savedRowsZ rid (ns.zip frames)).filter
      (fun r => r.rid = rid) = savedRowsZ rid (ns.zip frames) := by
    rw [List.filter_append]
    have h1 : tbl.filter (fun r => r.rid = rid) = [] := by
      rw [List.filter_eq_nil_iff]
      intro r hr
      simp [hfresh r hr]
    have h2 : (savedRowsZ rid (ns.zip frames)).filter
        (fun r => r.rid = rid) = savedRowsZ rid (ns.zip frames) := by
      rw [List.filter_eq_self]
      intro r hr
      simp [rid_of_mem_savedRowsZ hr]
    rw [h1, h2, List.nil_append]
  have hrr : ridRows (tbl ++ savedRowsZ rid (ns.zip frames)) rid =
      List.insertionSort rowLe (savedRowsZ rid (ns.zip frames)) := by
    unfold ridRows
    rw [hfilter]
  have hperm : (List.insertionSort rowLe (savedRowsZ rid (ns.zip frames))).Perm
      (savedRowsZ rid (ns.zip frames)) := List.perm_insertionSort _ _
  have hSSsorted : (List.insertionSort rowLe
      (savedRowsZ rid (ns.zip frames))).Pairwise rowLe :=
    List.sorted_insertionSort _ _
  have hsaved_ne : savedRowsZ rid (ns.zip frames) ≠ [] := by
    cases hfr : frames with
    | nil => exact absurd hfr hne
    | cons f fs =>
      cases hnsc : ns with
      | nil => rw [hnsc, hfr] at hlen; exact absurd hlen (by simp)
      | cons a as =>
        show savedRowsZ rid ((a, f) :: as.zip fs) ≠ []
        exact savedRowsZ_ne_nil (hok f (by rw [hfr]; simp)).1
  have hSS_ne : List.insertionSort rowLe (savedRowsZ rid (ns.zip frames)) ≠ [] := by
    intro h
    apply hsaved_ne
    have := hperm.length_eq
    rw [h] at this
    exact List.eq_nil_of_length_eq_zero this.symm
  have hnames_eq : List.insertionSort (· ≤ ·)
      (((List.insertionSort rowLe (savedRowsZ rid (ns.zip frames))).filterMap
        (fun r => r.aname)).dedup) = ns := by
    refine eq_of_pairwise_lt_of_mem_iff ?_ hsorted ?_
    · have hsorted' : (List.insertionSort (· ≤ ·)
          (((List.insertionSort rowLe (savedRowsZ rid (ns.zip frames))).filterMap
            (fun r => r.aname)).dedup)).Sorted (· ≤ ·) :=
        List.sorted_insertionSort _ _
      have hnd : (List.insertionSort (· ≤ ·)
          (((List.insertionSort rowLe (savedRowsZ rid (ns.zip frames))).filterMap
            (fun r => r.aname)).dedup)).Nodup :=
        (List.perm_insertionSort _ _).symm.nodup (List.nodup_dedup _)
      exact hsorted'.lt_of_le hnd
    · intro a
      rw [(List.perm_insertionSort (· ≤ ·) _).mem_iff, List.mem_dedup,
        (hperm.filterMap (fun r => r.aname)).mem_iff,
        mem_filterMap_aname_savedRowsZ hzok]
      constructor
      · rintro ⟨q, hq, rfl⟩
        have := (List.of_mem_zip hq).1
        exact this
      · intro ha
        obtain ⟨i, hi, hgi⟩ := List.mem_iff_getElem.mp ha
        exact ⟨(ns[i], frames[i]), hzipmem i hi, hgi.symm⟩
  have hgroups : ns.map (fun a => groupFrame schema
      ((List.insertionSort rowLe (savedRowsZ rid (ns.zip frames))).filter
        (fun r => r.aname = some a))) = frames.map serFrame := by
    apply List.ext_getElem
    · rw [List.length_map, List.length_map, hlen]
    · intro i h1 h2
      rw [List.getElem_map, List.getElem_map]
      have hi : i < ns.length := by rwa [List.length_map] at h1
      have hif : i < frames.length := hlen ▸ hi
      have hmem : (ns[i], frames[i]) ∈ ns.zip frames := hzipmem i hi
      have hfeq : (List.insertionSort rowLe
          (savedRowsZ rid (ns.zip frames))).filter
            (fun r => r.aname = some ns[i]) =
          frameRows rid (some ns[i]) frames[i] := by
        apply perm_sorted_strictT_eq
        · have := hperm.filter (fun r => r.aname = some ns[i])
          rwa [filter_name_savedRowsZ hzs_nd hmem] at this
        · exact hSSsorted.filter _
        · exact pairwise_t_lt_frameRows (hok frames[i] (List.getElem_mem hif))
      rw [hfeq, ← hcols frames[i] (List.getElem_mem hif),
        groupFrame_frameRows (hok frames[i] (List.getElem_mem hif))]
  simp only [fetch_timeseries]
  rw [hrr]
  have hie : (List.insertionSort rowLe
      (savedRowsZ rid (ns.zip frames))).isEmpty = false := by
    rw [List.isEmpty_eq_false_iff_exists_mem]
    cases hc : List.insertionSort rowLe (savedRowsZ rid (ns.zip frames)) with
    | nil => exact absurd hc hSS_ne
    | cons x xs => exact ⟨x, by simp⟩
  rw [hie]
  simp only [Bool.false_eq_true, if_false]
  rw [hnames_eq, hgroups]
  have hmne : frames.map serFrame ≠ [] := by
    cases hfr : frames with
    | nil => exact absurd hfr hne
    | cons f fs => simp
  exact match_reassemble _ hmne

end Solarize

namespace Solarize

/-- C4 helper: after inserting `keyedRow k c` into a table with no row at key
`k`, the table contains the new row and a second insert at the same key is
rejected. -/
lemma insert_twice_same_key (tbl : List SRow) (k : Key)
    (c c' : List (String × Option ℚ))
    (hfresh : ∀ r ∈ tbl, hasKey r k = false) :
    insertRow (insertRow tbl (keyedRow k c)) (keyedRow k c') =
      insertRow tbl (keyedRow k c) ∧
    (insertRow tbl (keyedRow k c)).filter (fun r => hasKey r k) = [keyedRow k c] := by
  have hno : tbl.any (fun r0 => keyConflict r0 (keyedRow k c)) = false := by
    rw [List.any_eq_false]
    intro r hr
    have hk := hfresh r hr
    simp only [hasKey, keyedRow, Bool.and_eq_false_iff, decide_eq_false_iff_not] at hk
    simp only [keyConflict, keyedRow, Bool.and_eq_true, decide_eq_true_eq]
    intro hcon
    obtain ⟨⟨hrid, ht⟩, hname⟩ := hcon
    cases hra : r.aname with
    | none => rw [hra] at hname; simp at hname
    | some s =>
      rw [hra] at hname
      simp only [decide_eq_true_eq] at hname
      rcases hk with (hk | hk) | hk
      · exact hk hrid
      · exact hk ht
      · rw [hra] at hk; exact hk (by rw [hname])
  have h1 : insertRow tbl (keyedRow k c) = tbl ++ [keyedRow k c] :=
    insertRow_of_no_conflict hno
  constructor
  · apply insertRow_of_conflict
    rw [h1, List.any_append]
    simp [keyConflict_keyedRow]
  · rw [h1, List.filter_append]
    have : tbl.filter (fun r => hasKey r k) = [] := by
      rw [List.filter_eq_nil_iff]
      intro r hr
      simp [hfresh r hr]
    simp [this, hasKey_keyedRow]

end Solarize

namespace Solarize

/-- Example frames and name maps used by concrete counterexamples and
witnesses. -/
def exNamesDup : ℕ → Option String := fun _ => some "A"

/-- The `result.ac` input of the counterexample save: a Series promoted to the
single column `ac` (`manager.py` line 112). -/
def exAcF : RawFrame := ⟨["ac"], [(0, [.val 5]), (1, [.val 6])]⟩

/-- The `result.aoi` / `result.aoi_modifier` input of the counterexample save:
the two-column DataFrame built at `manager.py` line 131, on the same
timestamps as the AC output. -/
def exAoiF : RawFrame :=
  ⟨["aoi", "aoi_modifier"], [(0, [.val 30, .val 1]), (1, [.val 40, .nan])]⟩

/-- The `ac_aoi` table after `save_modelchain_result`'s two writes to it
(`manager.py` lines 109-119 insert the AC frame, lines 122-132 then insert
the aoi frame with the same `(result_id, utc_time, array_name)` keys). -/
def exAcAoiTbl : List SRow :=
  insert_timeseries (insert_timeseries [] 1 exNamesDup [some exAcF]) 1
    exNamesDup [some exAoiF]

/-- What `fetch_timeseries("ac_aoi")` actually returns for that save: the AC
rows carrying NULL in the `aoi` and `aoi_modifier` schema columns. -/
def exFetchedAcAoi : QFrame :=
  ⟨ac_aoi_cols, [(0, [some 5, none, none]), (1, [some 6, none, none])]⟩

def wNames : ℕ → Option String :=
  fun n => if n = 0 then some "N" else if n = 1 then some "S" else none

def wFrame1 : RawFrame := ⟨["v"], [(0, [.val 3]), (1, [.val 4])]⟩

def wFrame2 : RawFrame := ⟨["v"], [(0, [.val 5]), (1, [.nan])]⟩

end Solarize

namespace Solarize

/-- C1 counterexample: the round trip fails inside `save_modelchain_result`
itself, on the `ac_aoi` table. The save writes `result.ac` (column `ac`) and
then `result.aoi`/`result.aoi_modifier` (columns `aoi`, `aoi_modifier`) into
the same table with the same `(result_id, utc_time, array_name)` keys, so
every aoi row hits `ON CONFLICT DO NOTHING` against the already-inserted AC
rows and vanishes; and the fetch is `SELECT *`, returning the table's full
three-column schema. Concretely: the aoi input held the value 30 at
timestamp 0, yet the fetched table is the AC rows with NULL in both aoi
columns — neither the values nor the column sets of the inputs survive. -/
theorem c1_roundtrip_counterexample :
    fetch_timeseries ac_aoi_cols exAcAoiTbl 1 =
      .ok (some (.one exFetchedAcAoi)) ∧
    serializeCell ((exAoiF.rows[0]).2[0]) = some 30 ∧
    (exFetchedAcAoi.rows[0]).2[1] = none ∧
    exAcF.cols ≠ exFetchedAcAoi.cols := by
  refine ⟨rfl, rfl, rfl, by decide⟩

/-- C1 (amended): with an array-name map assigning distinct labels (increasing
with the array index) to every array, per-array tables that are nonempty,
rectangular, strictly increasing in time and whose columns are exactly the
destination table schema's data columns, a fresh `result_id`, and a single
insert into the table for this `result_id` (which excludes `ac_aoi`'s split
ac/aoi writes), fetching after saving reconstructs the metric exactly:
identical timestamps, columns and serialized values; a single array comes
back as a single table, `N > 1` arrays as an `N`-tuple. -/
theorem c1_roundtrip
    (schema : List String) (tbl : List SRow) (rid : ℕ)
    (names : ℕ → Option String)
    (ns : List String) (frames : List RawFrame)
    (hlen : ns.length = frames.length)
    (hname : ∀ j (h : j < ns.length), names j = some (ns.get ⟨j, h⟩))
    (hfresh : ∀ r ∈ tbl, r.rid ≠ rid)
    (hsorted : ns.Pairwise (· < ·))
    (hok : ∀ f ∈ frames, FrameOK f)
    (hcols : ∀ f ∈ frames, f.cols = schema)
    (hne : frames ≠ []) :
    fetch_timeseries schema (insert_timeseries tbl rid names (frames.map some))
      rid = .ok (reassemble (frames.map serFrame)) :=
  fetch_insert_timeseries_roundtrip schema tbl rid names ns frames hlen hname
    hfresh hsorted hok hcols hne

/-- C1 witness: the amended round trip at a concrete two-array save. -/
theorem c1_roundtrip_witness :
    fetch_timeseries ["v"]
        (insert_timeseries [] 1 wNames ([wFrame1, wFrame2].map some)) 1 =
      .ok (reassemble ([wFrame1, wFrame2].map serFrame)) :=
  c1_roundtrip ["v"] [] 1 wNames ["N", "S"] [wFrame1, wFrame2]
    (by decide)
    (by
      intro j h
      match j with
      | 0 => rfl
      | 1 => rfl
      | n + 2 => exact absurd h (by simp))
    (by simp)
    (by
      refine List.Pairwise.cons ?_ (List.pairwise_singleton _ _)
      intro b hb
      rw [List.mem_singleton] at hb
      subst hb
      rw [String.lt_iff_toList_lt]
      decide)
    (by decide)
    (by decide)
    (by decide)

/-- C4: for every metric table and key triple `(result_id, utc_time,
array_name)` not yet present, inserting a point twice with that triple leaves
the table unchanged on the second insert (a no-op, not an overwrite and not a
duplicate) and exactly one row — holding the first-written values — carries
that key. -/
theorem c4_idempotent_insert (tbl : List SRow) (k : Key)
    (c c' : List (String × Option ℚ))
    (hfresh : ∀ r ∈ tbl, hasKey r k = false) :
    insertRow (insertRow tbl (keyedRow k c)) (keyedRow k c') =
      insertRow tbl (keyedRow k c) ∧
    (insertRow (insertRow tbl (keyedRow k c)) (keyedRow k c')).filter
      (fun r => hasKey r k) = [keyedRow k c] := by
  obtain ⟨h1, h2⟩ := insert_twice_same_key tbl k c c' hfresh
  exact ⟨h1, by rw [h1]; exact h2⟩

/-- C4 witness: double insert of the key `(1, 0, "A")` with different payloads
into a one-row table carrying a different key. -/
theorem c4_idempotent_insert_witness :
    (∀ r ∈ [keyedRow ⟨1, 0, "B"⟩ [("x", some 9)]], hasKey r ⟨1, 0, "A"⟩ = false) ∧
    (insertRow (insertRow [keyedRow ⟨1, 0, "B"⟩ [("x", some 9)]]
        (keyedRow ⟨1, 0, "A"⟩ [("x", some 1)])) (keyedRow ⟨1, 0, "A"⟩ [("x", some 2)]) =
      insertRow [keyedRow ⟨1, 0, "B"⟩ [("x", some 9)]]
        (keyedRow ⟨1, 0, "A"⟩ [("x", some 1)]) ∧
    (insertRow (insertRow [keyedRow ⟨1, 0, "B"⟩ [("x", some 9)]]
        (keyedRow ⟨1, 0, "A"⟩ [("x", some 1)])) (keyedRow ⟨1, 0, "A"⟩ [("x", some 2)])).filter
      (fun r => hasKey r ⟨1, 0, "A"⟩) = [keyedRow ⟨1, 0, "A"⟩ [("x", some 1)]]) :=
  ⟨by decide,
   c4_idempotent_insert [keyedRow ⟨1, 0, "B"⟩ [("x", some 9)]] ⟨1, 0, "A"⟩
     [("x", some 1)] [("x", some 2)] (by decide)⟩

end Solarize

namespace Solarize

/-- C5: a serialized cell holding NaN/NaT is written as a true SQL NULL — not
as `0`, and not as any rational value at all — and, through a fresh-id save
and fetch, comes back as a NULL at the same row and column position of the
reconstructed table. Moreover the property survives `save_modelchain_result`'s
own conflicting double write to `ac_aoi`: there the NaN's whole row is dropped
by `ON CONFLICT DO NOTHING`, but because the two writes target disjoint
columns of the schema, `SELECT *` still returns NULL at the NaN's timestamp
and column (`aoi_modifier` at timestamp 1 in the concrete save). -/
theorem c5_nan_roundtrip
    (schema : List String) (tbl : List SRow) (rid : ℕ)
    (names : ℕ → Option String)
    (ns : List String) (frames : List RawFrame)
    (hlen : ns.length = frames.length)
    (hname : ∀ j (h : j < ns.length), names j = some (ns.get ⟨j, h⟩))
    (hfresh : ∀ r ∈ tbl, r.rid ≠ rid)
    (hsorted : ns.Pairwise (· < ·))
    (hok : ∀ f ∈ frames, FrameOK f)
    (hcols : ∀ f ∈ frames, f.cols = schema)
    (hne : frames ≠ [])
    (i k p : ℕ) (hi : i < frames.length)
    (hk : k < frames[i].rows.length)
    (hp : p < (frames[i].rows[k]).2.length)
    (hnan : (frames[i].rows[k]).2[p] = PCell.nan) :
    ((frames[i].rows[k]).2.map serializeCell)[p]? = some none ∧
    (∀ q : ℚ, ((frames[i].rows[k]).2.map serializeCell)[p]? ≠ some (some q)) ∧
    ((serFrame frames[i]).rows)[k]? =
      some ((frames[i].rows[k]).1, (frames[i].rows[k]).2.map serializeCell) ∧
    fetch_timeseries schema (insert_timeseries tbl rid names (frames.map some))
      rid = .ok (reassemble (frames.map serFrame)) ∧
    ((exAoiF.rows[1]).2[1] = PCell.nan ∧
     exAoiF.cols[1] = "aoi_modifier" ∧
     fetch_timeseries ac_aoi_cols exAcAoiTbl 1 =
       .ok (some (.one exFetchedAcAoi)) ∧
     ac_aoi_cols[2] = "aoi_modifier" ∧
     (exFetchedAcAoi.rows[1]).1 = 1 ∧ (exFetchedAcAoi.rows[1]).2[2] = none) := by
  have hcell : ((frames[i].rows[k]).2.map serializeCell)[p]? = some none := by
    rw [List.getElem?_map, List.getElem?_eq_getElem hp, hnan]
    rfl
  refine ⟨hcell, ?_, ?_, ?_, rfl, rfl, rfl, rfl, rfl, rfl⟩
  · intro q hq
    rw [hcell] at hq
    simp at hq
  · show ((frames[i].rows.map
        (fun tc => (tc.1, tc.2.map serializeCell)))[k]?) = _
    rw [List.getElem?_map, List.getElem?_eq_getElem hk]
    rfl
  · exact fetch_insert_timeseries_roundtrip schema tbl rid names ns frames hlen
      hname hfresh hsorted hok hcols hne

/-- C5 witness: the NaN in the second array's second row round-trips to NULL
in the concrete two-array save of the C1 witness data. -/
theorem c5_nan_roundtrip_witness :
    (([wFrame1, wFrame2][1].rows[1]).2[0] = PCell.nan) ∧
    ((([wFrame1, wFrame2][1].rows[1]).2.map serializeCell)[0]? = some none ∧
    (∀ q : ℚ, (([wFrame1, wFrame2][1].rows[1]).2.map serializeCell)[0]? ≠
      some (some q)) ∧
    ((serFrame [wFrame1, wFrame2][1]).rows)[1]? =
      some ((([wFrame1, wFrame2][1]).rows[1]).1,
        (([wFrame1, wFrame2][1]).rows[1]).2.map serializeCell) ∧
    fetch_timeseries ["v"]
        (insert_timeseries [] 1 wNames ([wFrame1, wFrame2].map some)) 1 =
      .ok (reassemble ([wFrame1, wFrame2].map serFrame)) ∧
    ((exAoiF.rows[1]).2[1] = PCell.nan ∧
     exAoiF.cols[1] = "aoi_modifier" ∧
     fetch_timeseries ac_aoi_cols exAcAoiTbl 1 =
       .ok (some (.one exFetchedAcAoi)) ∧
     ac_aoi_cols[2] = "aoi_modifier" ∧
     (exFetchedAcAoi.rows[1]).1 = 1 ∧ (exFetchedAcAoi.rows[1]).2[2] = none)) :=
  ⟨by decide,
   c5_nan_roundtrip ["v"] [] 1 wNames ["N", "S"] [wFrame1, wFrame2]
    (by decide)
    (by
      intro j h
      match j with
      | 0 => rfl
      | 1 => rfl
      | n + 2 => exact absurd h (by simp))
    (by simp)
    (by
      refine List.Pairwise.cons ?_ (List.pairwise_singleton _ _)
      intro b hb
      rw [List.mem_singleton] at hb
      subst hb
      rw [String.lt_iff_toList_lt]
      decide)
    (by decide)
    (by decide)
    (by decide)
    1 1 0 (by decide) (by decide) (by decide) (by decide)⟩

end Solarize

namespace Solarize

/-- A write queued inside the open database transaction: the metadata row of
`modelchain_results` or one per-metric point row. -/
inductive DBWrite where
  | metaRow (rid : ℕ)
  | pointRow (r : SRow)
  deriving DecidableEq, Repr

/-- The connection's transaction state (`connection.py`): `committed` is what
a reader on another connection can see; `pending` are this transaction's
uncommitted writes. `psycopg2` runs every statement inside the connection's
current transaction until `commit()`/`rollback()` is called. -/
structure TxState where
  committed : List DBWrite
  pending : List DBWrite
  deriving DecidableEq, Repr

/-- Executing one INSERT on the cursor adds a pending write. -/
def execWrite (st : TxState) (w : DBWrite) : TxState :=
  { st with pending := st.pending ++ [w] }

/-- `DatabaseConnection.commit` (`connection.py` line 29): publishes every
pending write of the connection's open transaction. -/
def commitTx (st : TxState) : TxState :=
  ⟨st.committed ++ st.pending, []⟩

/-- `DatabaseConnection.rollback` (`connection.py` line 32): discards the
pending writes. `save_modelchain_result` never calls it. -/
def rollbackTx (st : TxState) : TxState :=
  { st with pending := [] }

/-- `save_modelchain_result` (`manager.py` lines 62-163) at transaction
granularity: the metadata INSERT executes first, the per-metric INSERTs
follow, and `self.db.commit()` runs only after all of them; only then is
`result_id` returned. The `with self.db.cursor()` block closes the cursor but
neither catches exceptions nor rolls back, so when a step raises after `k`
metric writes (`failAfter = some k`) the method propagates the exception
(returns no `result_id`) and leaves the metadata row and the first `k` metric
writes pending in the still-open transaction. -/
def save_modelchain_tx (st : TxState) (rid : ℕ) (rows : List DBWrite)
    (failAfter : Option ℕ) : TxState × Option ℕ :=
  let st1 := execWrite st (.metaRow rid)
  match failAfter with
  | none => (commitTx (rows.foldl execWrite st1), some rid)
  | some k => ((rows.take k).foldl execWrite st1, none)

end Solarize

namespace Solarize

/-- C2: the code violates the rollback contract. A `save_modelchain_result`
call that raises right after the metadata INSERT does propagate the error and
hands out no `result_id`, but its metadata row stays pending in the open
transaction — `save_modelchain_result` has no rollback path — so the next
`commit()` issued on the same connection (by any later, unrelated successful
operation) persists the partial result; an explicit rollback, which the spec
requires, would have discarded it. -/
theorem c2_no_rollback_code_bug :
    (save_modelchain_tx ⟨[], []⟩ 7
        [.pointRow ⟨7, 0, some "A", [("ac", some 100)]⟩] (some 0)).2 = none ∧
    (save_modelchain_tx ⟨[], []⟩ 7
        [.pointRow ⟨7, 0, some "A", [("ac", some 100)]⟩] (some 0)).1.pending =
      [.metaRow 7] ∧
    DBWrite.metaRow 7 ∈ (commitTx (save_modelchain_tx ⟨[], []⟩ 7
        [.pointRow ⟨7, 0, some "A", [("ac", some 100)]⟩] (some 0)).1).committed ∧
    rollbackTx (save_modelchain_tx ⟨[], []⟩ 7
        [.pointRow ⟨7, 0, some "A", [("ac", some 100)]⟩] (some 0)).1 =
      ⟨[], []⟩ ∧
    (save_modelchain_tx ⟨[], []⟩ 7
        [.pointRow ⟨7, 0, some "A", [("ac", some 100)]⟩] none).2 = some 7 := by
  refine ⟨rfl, rfl, ?_, rfl, rfl⟩
  decide

end Solarize

namespace Solarize

/-- Python subscript `value['col']` on a fetched metric entry, as
`Analyzer.__init__` (line 8) performs it via
`simulation_data['ac_aoi']['ac']`: subscripting `None` raises `TypeError`,
subscripting a tuple with a string raises `TypeError`, and a DataFrame yields
the column (`KeyError` when absent). -/
def subscriptCol (entry : Option (OneOrMany QFrame)) (c : String) :
    Except String (List (ℕ × Option ℚ)) :=
  match entry with
  | none => .error "TypeError: NoneType object is not subscriptable"
  | some (.many _) => .error "TypeError: tuple indices must be integers"
  | some (.one f) =>
    match f.cols.findIdx? (fun c0 => c0 = c) with
    | none => .error "KeyError"
    | some i => .ok (f.rows.map (fun tc => (tc.1, (tc.2[i]?).getD none)))

/-- `Analyzer.__init__` / `SeasonalAnalyzer.__init__` (line 8 of each):
`self.ac_power = simulation_data['ac_aoi']['ac']`. -/
def analyzerInitAcPower (acAoi : Option (OneOrMany QFrame)) :
    Except String (List (ℕ × Option ℚ)) :=
  subscriptCol acAoi "ac"

/-- `Series.idxmax` over (timestamp, value) pairs: pandas raises `ValueError`
on an empty series, otherwise returns the timestamp of the first maximal
value. -/
def idxmaxQ (l : List (ℕ × ℚ)) : Except String ℕ :=
  match l with
  | [] => .error "ValueError: attempt to get argmax of an empty sequence"
  | x :: xs => .ok (xs.foldl (fun acc p => if p.2 > acc.2 then p else acc) x).1

/-- `SeasonalAnalyzer.get_peak_hourly_production` (lines 48-58): `idxmax` and
`max` of the hourly-energy series; on an empty series the `idxmax` call
raises. -/
def get_peak_hourly_production (hourly : List (ℕ × ℚ)) :
    Except String (ℕ × ℚ) :=
  match idxmaxQ hourly with
  | .error e => .error e
  | .ok t =>
    match hourly with
    | [] => .error "ValueError: attempt to get argmax of an empty sequence"
    | x :: xs => .ok (t, xs.foldl (fun acc p => max acc p.2) x.2)

/-- C3: the code violates the never-raise contract. When a metric's value in
the reconstructed dict is `None` (empty table on fetch), `Analyzer.__init__`
evaluates `None['ac']` and raises `TypeError` instead of substituting a
zero-metric input; and `SeasonalAnalyzer.get_peak_hourly_production` raises
`ValueError` on an empty series instead of returning a no-data marker. -/
theorem c3_none_metric_raises_code_bug :
    analyzerInitAcPower none =
      .error "TypeError: NoneType object is not subscriptable" ∧
    get_peak_hourly_production [] =
      .error "ValueError: attempt to get argmax of an empty sequence" :=
  ⟨rfl, rfl⟩

end Solarize

namespace Solarize

/-- Python's `round(x, d)` rounds half to even. `roundHalfEvenF q` is
`round(q, 0)` over an exact-arithmetic model of the float. -/
def roundHalfEvenF {α : Type} [LinearOrderedField α] [FloorRing α] (q : α) : ℤ :=
  let f := ⌊q⌋
  let r := q - (f : α)
  if r < 1/2 then f
  else if r > 1/2 then f + 1
  else if f % 2 = 0 then f else f + 1

/-- Python's `round(x, 1)`. -/
def round1F {α : Type} [LinearOrderedField α] [FloorRing α] (q : α) : α :=
  (roundHalfEvenF (10 * q) : α) / 10

/-- Python's `round(x, 2)`. -/
def round2F {α : Type} [LinearOrderedField α] [FloorRing α] (q : α) : α :=
  (roundHalfEvenF (100 * q) : α) / 100

/-- Python's `round(x, 3)`. -/
def round3F {α : Type} [LinearOrderedField α] [FloorRing α] (q : α) : α :=
  (roundHalfEvenF (1000 * q) : α) / 1000

lemma roundHalfEvenF_nonneg {α : Type} [LinearOrderedField α] [FloorRing α]
    {q : α} (h : 0 ≤ q) : 0 ≤ roundHalfEvenF q := by
  have hf : (0 : ℤ) ≤ ⌊q⌋ := Int.floor_nonneg.mpr h
  simp only [roundHalfEvenF]
  split
  · exact hf
  · split
    · omega
    · split
      · exact hf
      · omega

lemma roundHalfEvenF_le {α : Type} [LinearOrderedField α] [FloorRing α]
    {q : α} {B : ℤ} (h : q ≤ (B : α)) : roundHalfEvenF q ≤ B := by
  have hfb : ⌊q⌋ ≤ B := by
    have h1 := Int.floor_le_floor h
    rwa [Int.floor_intCast] at h1
  simp only [roundHalfEvenF]
  split
  · exact hfb
  · rename_i hr
    push_neg at hr
    have hlt : ⌊q⌋ < B := by
      have h1 : (⌊q⌋ : α) + 1/2 ≤ q := by linarith
      have h2 : (⌊q⌋ : α) < (B : α) := by linarith
      exact_mod_cast h2
    split
    · omega
    · split
      · exact hfb
      · omega

end Solarize

namespace Solarize

lemma round1F_bounds {α : Type} [LinearOrderedField α] [FloorRing α] {q : α}
    (h0 : 0 ≤ q) (h100 : q ≤ 100) : 0 ≤ round1F q ∧ round1F q ≤ 100 := by
  unfold round1F
  have hr0 : (0 : ℤ) ≤ roundHalfEvenF (10 * q) :=
    roundHalfEvenF_nonneg (by linarith)
  have hrB : roundHalfEvenF (10 * q) ≤ (1000 : ℤ) :=
    roundHalfEvenF_le (by push_cast; linarith)
  constructor
  · apply div_nonneg _ (by norm_num)
    exact_mod_cast hr0
  · rw [div_le_iff (by norm_num)]
    calc (roundHalfEvenF (10 * q) : α) ≤ ((1000 : ℤ) : α) := by exact_mod_cast hrB
    _ = 100 * 10 := by norm_num

/-- One aligned hourly sample of the fetched, normalized simulation data, as
the analyzers consume it: the calendar month and hour of its timestamp, the
AC power (`ac_aoi['ac']`, W), the plane-of-array irradiance
(`total_irrad['poa_global']`, W/m²) and the cell temperature
(`cell_temperature['temperature']`, °C). -/
structure Sample where
  month : ℕ
  hour : ℕ
  ac : ℚ
  poa : ℚ
  temp : ℚ
  deriving DecidableEq, Repr

/-- `Analyzer.calculate_annual_production` (`analyzer.py` lines 17-21):
`(self.ac_power / 1000).sum()`. -/
def calculate_annual_production (l : List Sample) : ℚ :=
  (l.map (fun s => s.ac / 1000)).sum

/-- `Analyzer.calculate_system_efficiency` (lines 23-36): total AC energy
over total POA energy × 100, 0 when the denominator is not positive. -/
def calculate_system_efficiency (l : List Sample) : ℚ :=
  let total_solar_energy_wh := (l.map (fun s => s.poa)).sum
  let total_ac_energy_wh := (l.map (fun s => s.ac)).sum
  if total_solar_energy_wh > 0 then
    total_ac_energy_wh / total_solar_energy_wh * 100
  else 0

/-- `Analyzer.calculate_capacity_factor` (lines 38-46): annual kWh over
peak kW × 8760 hours, × 100; 0 when the peak is not positive (on an empty
series `Series.max()` is NaN and `NaN > 0` is false, hence also 0). -/
def calculate_capacity_factor (l : List Sample) : ℚ :=
  match (l.map (fun s => s.ac)).maximum? with
  | none => 0
  | some m =>
    if m / 1000 > 0 then
      calculate_annual_production l / ((m / 1000) * 8760) * 100
    else 0

/-- `Analyzer.calculate_performance_ratio` (lines 48-70): over daylight
samples (POA > 10 W/m²), actual AC sum over theoretical DC sum with the
temperature correction `1 + (-0.004)·(T - 25)`, × 100, clamped into [0, 100];
0 with no daylight samples. -/
def calculate_performance_ratio (l : List Sample) : ℚ :=
  let daylight := l.filter (fun s => s.poa > 10)
  if daylight.isEmpty then 0
  else
    let theoretical_dc :=
      (daylight.map (fun s => s.poa * (1 + (-4/1000) * (s.temp - 25)))).sum
    let actual_ac := (daylight.map (fun s => s.ac)).sum
    max 0 (min 100 (actual_ac / theoretical_dc * 100))

/-- The distinct calendar months of the sample index, ascending — the group
keys of `groupby(index.month)`. -/
def monthsOf (l : List Sample) : List ℕ :=
  List.insertionSort (· ≤ ·) ((l.map (fun s => s.month)).dedup)

/-- Monthly energy: `(ac/1000).groupby(month).sum()`, in group-key order. -/
def monthlyEnergy (l : List Sample) : List ℚ :=
  (monthsOf l).map
    (fun m => ((l.filter (fun s => s.month = m)).map (fun s => s.ac / 1000)).sum)

/-- `Series.std()` squared: the ddof=1 sample variance pandas uses. -/
def sampleVariance (xs : List ℚ) : ℚ :=
  let mean := xs.sum / xs.length
  ((xs.map (fun x => (x - mean) ^ 2)).sum) / ((xs.length : ℚ) - 1)

/-- `Analyzer.calculate_seasonal_consistency` (lines 72-86):
`max(0, 100 - (std/mean)·100)` over the monthly energies, 0 when there are no
months or the maximum is not positive. With a single month pandas'
`std()` (ddof=1) is NaN, `100 - NaN·100` is NaN, and Python's
`max(0, nan)` returns its first argument `0` — hence the explicit 0. -/
noncomputable def calculate_seasonal_consistency (l : List Sample) : ℝ :=
  let me := monthlyEnergy l
  match me.maximum? with
  | none => 0
  | some mx =>
    if mx > 0 then
      if me.length = 1 then 0
      else
        let mean : ℚ := me.sum / me.length
        let cv : ℝ := Real.sqrt ((sampleVariance me : ℚ) : ℝ) / (mean : ℝ)
        max 0 (100 - cv * 100)
    else 0

/-- `Analyzer.calculate_peak_alignment` (lines 88-98): energy in hours 10-14
inclusive over total energy × 100; 0 when total is not positive. -/
def calculate_peak_alignment (l : List Sample) : ℚ :=
  let total_energy := (l.map (fun s => s.ac / 1000)).sum
  if total_energy > 0 then
    ((l.filter (fun s => 10 ≤ s.hour ∧ s.hour ≤ 14)).map
      (fun s => s.ac / 1000)).sum / total_energy * 100
  else 0

/-- `Analyzer.calculate_utilization_factor` (lines 100-108): count of
daylight samples with positive AC power over count of daylight samples
× 100; 0 with no daylight samples. -/
def calculate_utilization_factor (l : List Sample) : ℚ :=
  let daylight := l.filter (fun s => s.poa > 10)
  if daylight.isEmpty then 0
  else ((daylight.filter (fun s => s.ac > 0)).length : ℚ) /
    (daylight.length : ℚ) * 100

/-- `Analyzer.get_rating_description` (lines 10-15). -/
noncomputable def get_rating_description (score : ℝ) : String :=
  if score ≥ 90 then "Excellent"
  else if score ≥ 80 then "Very Good"
  else if score ≥ 70 then "Good"
  else if score ≥ 60 then "Fair"
  else "Poor"

/-- The dictionary `Analyzer.calculate_score` returns (lines 110-157),
flattened: every numeric entry is rounded to one decimal. -/
structure PerfReport where
  overall_score : ℝ
  rating : String
  annual_energy_kwh : ℚ
  capacity_factor_percent : ℚ
  system_efficiency_percent : ℚ
  performance_ratio_percent : ℚ
  efficiency_score : ℚ
  seasonal_consistency_score : ℝ
  system_performance_score : ℚ
  utilization_score : ℚ
  peak_alignment_percent : ℚ
  utilization_factor_percent : ℚ

/-- `Analyzer.calculate_score` (lines 110-157): component scores are
`min(100, 2·efficiency)`, the seasonal consistency, the performance ratio and
the utilization factor; the overall score weighs each at 0.25; the rating is
taken on the unrounded overall score. -/
noncomputable def calculate_score (l : List Sample) : PerfReport :=
  let annual_energy := calculate_annual_production l
  let system_efficiency := calculate_system_efficiency l
  let capacity_factor := calculate_capacity_factor l
  let performance_ratio := calculate_performance_ratio l
  let seasonal_consistency := calculate_seasonal_consistency l
  let peak_alignment := calculate_peak_alignment l
  let utilization_factor := calculate_utilization_factor l
  let efficiency_score := min 100 (system_efficiency * 2)
  let overall_score : ℝ :=
    (efficiency_score : ℝ) * (25 / 100) + seasonal_consistency * (25 / 100) +
      (performance_ratio : ℝ) * (25 / 100) + (utilization_factor : ℝ) * (25 / 100)
  { overall_score := round1F overall_score
    rating := get_rating_description overall_score
    annual_energy_kwh := round1F annual_energy
    capacity_factor_percent := round1F capacity_factor
    system_efficiency_percent := round1F system_efficiency
    performance_ratio_percent := round1F performance_ratio
    efficiency_score := round1F efficiency_score
    seasonal_consistency_score := round1F seasonal_consistency
    system_performance_score := round1F performance_ratio
    utilization_score := round1F utilization_factor
    peak_alignment_percent := round1F peak_alignment
    utilization_factor_percent := round1F utilization_factor }

end Solarize

namespace Solarize

/-- `SeasonalAnalyzer.calculate_seasonal_variation` (lines 60-91), the
`variation_percent` entry before rounding: `(max - min)/max · 100` over the
monthly production, 0 on empty months or a non-positive maximum. -/
def seasonal_variation_percent (l : List Sample) : ℚ :=
  match (monthlyEnergy l).maximum?, (monthlyEnergy l).minimum? with
  | some mx, some mn => if mx > 0 then (mx - mn) / mx * 100 else 0
  | _, _ => 0

/-- The `description` entry of `calculate_seasonal_variation`: `No Data` on
empty months, then the <20 / <50 bands. -/
def seasonal_variation_description (l : List Sample) : String :=
  if monthlyEnergy l = [] then "No Data"
  else
    let v := seasonal_variation_percent l
    if v < 20 then "Low Variation"
    else if v < 50 then "Moderate Variation"
    else "High Variation"

/-- `seasonal_mapping` (`seasonal_analyzer.py` lines 95-100) as a function on
the months 1..12 that `index.month` produces: Dec-Feb Winter, Mar-May Spring,
Jun-Aug Summer, Sep-Nov Fall. -/
def seasonOf (m : ℕ) : String :=
  if m = 12 ∨ m ≤ 2 then "Winter"
  else if m ≤ 5 then "Spring"
  else if m ≤ 8 then "Summer"
  else "Fall"

/-- `seasonal_production[season] = seasonal_production.get(season, 0) +
production`: an insertion-ordered dict update. -/
def upsertAdd (acc : List (String × ℚ)) (key : String) (v : ℚ) :
    List (String × ℚ) :=
  if acc.any (fun p => p.1 = key) then
    acc.map (fun p => if p.1 = key then (p.1, p.2 + v) else p)
  else acc ++ [(key, v)]

/-- The monthly production pairs `(month, kWh)` in group-key order. -/
def monthlyPairs (l : List Sample) : List (ℕ × ℚ) :=
  (monthsOf l).map
    (fun m => (m, ((l.filter (fun s => s.month = m)).map
      (fun s => s.ac / 1000)).sum))

/-- The per-season production dict of `get_seasonal_distribution`
(lines 93-114). -/
def seasonalProduction (l : List Sample) : List (String × ℚ) :=
  (monthlyPairs l).foldl (fun acc p => upsertAdd acc (seasonOf p.1) p.2) []

/-- `SeasonalAnalyzer.get_seasonal_distribution` (lines 93-114): each season's
share of the annual total as a rounded percentage; the empty dict when the
total is not positive. -/
def get_seasonal_distribution (l : List Sample) : List (String × ℚ) :=
  let sp := seasonalProduction l
  let total_annual := (sp.map Prod.snd).sum
  if total_annual > 0 then
    sp.map (fun p => (p.1, round1F (p.2 / total_annual * 100)))
  else []

end Solarize

namespace Solarize

/-
`FinancialAnalyzer` (`financial_analysis.py`): the default parameters of
lines 24-50, kept at their defaults (no `financial_params` override).
-/

def system_cost_per_watt : ℚ := 5/2

def installation_cost : ℚ := 0

def inverter_replacement_cost : ℚ := 0

def electricity_rate : ℚ := 3/20

def escalation_rate : ℚ := 1/40

def tax_credit_rate : ℚ := 3/10

def state_rebate : ℚ := 0

def system_lifetime_years : ℕ := 25

def inverter_replacement_year : ℕ := 15

def degradation_rate : ℚ := 1/200

def annual_maintenance_cost : ℚ := 200

def insurance_cost_per_year : ℚ := 150

def discount_rate : ℚ := 3/50

/-- `self.system_size_kw = self.ac_power.max() / 1000` (line 57). For an
empty series `Series.max()` is NaN in the source; the model gives 0 and every
theorem below excludes the empty series by hypothesis. -/
def fin_system_size_kw (ac : List ℚ) : ℚ :=
  match ac.maximum? with
  | none => 0
  | some m => m / 1000

/-- `_calculate_total_system_cost` (lines 61-72). -/
def total_system_cost (ac : List ℚ) : ℚ :=
  fin_system_size_kw ac * 1000 * system_cost_per_watt + installation_cost

/-- `_calculate_annual_energy` (lines 74-83): `(self.ac_power / 1000).sum()`. -/
def fin_annual_energy (ac : List ℚ) : ℚ :=
  (ac.map (fun x => x / 1000)).sum

/-- The net system cost after the incentive adjustment, as computed inside
`calculate_simple_payback`, `calculate_net_present_value`,
`calculate_internal_rate_of_return` and `calculate_levelized_cost_of_energy`. -/
def net_system_cost (ac : List ℚ) : ℚ :=
  total_system_cost ac * (1 - (tax_credit_rate + state_rebate))

/-- `calculate_simple_payback` (lines 85-102); `none` models `float('inf')`. -/
def calculate_simple_payback (ac : List ℚ) : Option ℚ :=
  let annual_savings := fin_annual_energy ac * electricity_rate
  if annual_savings > 0 then some (net_system_cost ac / annual_savings)
  else none

/-- `calculate_net_present_value` (lines 104-144). -/
def calculate_net_present_value (ac : List ℚ) : ℚ :=
  (List.range system_lifetime_years).foldl
    (fun npv y =>
      let year := y + 1
      let degraded_energy :=
        fin_annual_energy ac * (1 - degradation_rate) ^ (year - 1)
      let escalated_rate := electricity_rate * (1 + escalation_rate) ^ (year - 1)
      let year_savings := degraded_energy * escalated_rate
      let flow0 :=
        year_savings - (annual_maintenance_cost + insurance_cost_per_year)
      let year_net_cash_flow :=
        if year = inverter_replacement_year then
          flow0 - inverter_replacement_cost
        else flow0
      npv + year_net_cash_flow / (1 + discount_rate) ^ year)
    (-(net_system_cost ac))

/-- `calculate_internal_rate_of_return` (lines 146-167): average annual
savings over net cost × 100; the `except ZeroDivisionError` arm returns 0. -/
def calculate_internal_rate_of_return (ac : List ℚ) : ℚ :=
  if net_system_cost ac = 0 then 0
  else fin_annual_energy ac * electricity_rate / net_system_cost ac * 100

/-- `calculate_levelized_cost_of_energy` (lines 169-209): discounted lifetime
cost over discounted lifetime energy; `none` models `float('inf')` when the
discounted energy is not positive. -/
def calculate_levelized_cost_of_energy (ac : List ℚ) : Option ℚ :=
  let totals := (List.range system_lifetime_years).foldl
    (fun acc y =>
      let year := y + 1
      let year_cost0 := annual_maintenance_cost + insurance_cost_per_year
      let year_cost :=
        if year = inverter_replacement_year then
          year_cost0 + inverter_replacement_cost
        else year_cost0
      let year_energy :=
        fin_annual_energy ac * (1 - degradation_rate) ^ (year - 1)
      (acc.1 + year_cost / (1 + discount_rate) ^ year,
       acc.2 + year_energy / (1 + discount_rate) ^ year))
    (net_system_cost ac, (0 : ℚ))
  if totals.2 > 0 then some (totals.1 / totals.2) else none

/-- The `payback_period_score` of `calculate_score` (line 281). -/
def payback_period_score (ac : List ℚ) : ℚ :=
  match calculate_simple_payback ac with
  | none => 0
  | some p => max 0 (min 100 ((20 - p) * 10))

/-- The `npv_score` of `calculate_score` (line 284). When `npv > 0` the
source divides by `total_system_cost`; a zero cost with positive NPV cannot
arise (zero cost forces zero peak power, hence no savings and negative NPV). -/
def npv_score (ac : List ℚ) : ℚ :=
  let npv := calculate_net_present_value ac
  if npv > 0 then max 0 (min 100 (npv / total_system_cost ac * 100)) else 0

/-- The `irr_score` of `calculate_score` (line 287). -/
def irr_score (ac : List ℚ) : ℚ :=
  min 100 (calculate_internal_rate_of_return ac * 2)

/-- The `lcoe_score` of `calculate_score` (line 290). -/
def lcoe_score (ac : List ℚ) : ℚ :=
  match calculate_levelized_cost_of_energy ac with
  | none => 0
  | some lc => max 0 (min 100 ((3/10 - lc) * 500))

/-- The `overall_financial_score` weights of `calculate_score`
(lines 293-298). -/
def overall_financial_score (ac : List ℚ) : ℚ :=
  payback_period_score ac * (30/100) + npv_score ac * (25/100) +
    irr_score ac * (25/100) + lcoe_score ac * (20/100)

/-- The score entries of the dict `FinancialAnalyzer.calculate_score` returns
(lines 306-329), rounded to one decimal as in the source. -/
structure FinScores where
  overall_financial_score : ℚ
  payback_period_score : ℚ
  npv_score : ℚ
  irr_score : ℚ
  lcoe_score : ℚ
  deriving DecidableEq, Repr

/-- `FinancialAnalyzer.calculate_score` (lines 266-329), restricted to its
score entries. -/
def fin_calculate_score (ac : List ℚ) : FinScores :=
  { overall_financial_score := round1F (overall_financial_score ac)
    payback_period_score := round1F (payback_period_score ac)
    npv_score := round1F (npv_score ac)
    irr_score := round1F (irr_score ac)
    lcoe_score := round1F (lcoe_score ac) }

/-- Row-wise mean across aligned series
(`pd.concat(series_list, axis=1).mean(axis=1)` in
`utils.aggregate_timeseries`, for series sharing one index). -/
def rowwiseMean (ls : List (List ℚ)) : List ℚ :=
  match ls with
  | [] => []
  | l0 :: _ =>
    (List.range l0.length).map (fun i =>
      let vs := ls.filterMap (fun l => l[i]?)
      vs.sum / vs.length)

/-- `utils.aggregate_timeseries` (`utils.py` lines 49-72) after the per-frame
column extraction: a single series is returned as is (also a 1-tuple), a
tuple of aligned series becomes their row-wise mean. -/
def aggregate_timeseries : OneOrMany (List ℚ) → List ℚ
  | .one s => s
  | .many [s] => s
  | .many ls => rowwiseMean ls

end Solarize

namespace Solarize

/-- Doubling every value of an AC power series, in whichever of the two
shapes (single series or per-array tuple) it reaches
`utils.aggregate_timeseries`. -/
def doubleAc : OneOrMany (List ℚ) → OneOrMany (List ℚ)
  | .one s => .one (s.map (fun x => 2 * x))
  | .many ls => .many (ls.map (fun l => l.map (fun x => 2 * x)))

lemma fin_annual_energy_double (s : List ℚ) :
    fin_annual_energy (s.map (fun x => 2 * x)) = 2 * fin_annual_energy s := by
  unfold fin_annual_energy
  induction s with
  | nil => simp
  | cons x t ih =>
    simp only [List.map_cons, List.sum_cons] at *
    rw [ih]
    ring

lemma sum_map_double (vs : List ℚ) :
    (vs.map (fun x => 2 * x)).sum = 2 * vs.sum := by
  induction vs with
  | nil => simp
  | cons v t ih =>
    simp only [List.map_cons, List.sum_cons] at *
    rw [ih]
    ring

lemma filterMap_getElem_map_double (ms : List (List ℚ)) (i : ℕ) :
    (ms.map (fun l => l.map (fun x => 2 * x))).filterMap (fun l => l[i]?) =
      (ms.filterMap (fun l => l[i]?)).map (fun x => 2 * x) := by
  rw [List.filterMap_map, List.map_filterMap]
  apply List.filterMap_congr
  intro l _
  rw [Function.comp_apply, List.getElem?_map]

lemma rowwiseMean_double (ls : List (List ℚ)) :
    rowwiseMean (ls.map (fun l => l.map (fun x => 2 * x))) =
      (rowwiseMean ls).map (fun x => 2 * x) := by
  unfold rowwiseMean
  match ls with
  | [] => rfl
  | l0 :: rest =>
    simp only [List.map_cons, List.map_map, List.length_map]
    apply List.map_congr_left
    intro i _
    rw [← List.map_cons (fun l => List.map (fun x => 2 * x) l) l0 rest,
      filterMap_getElem_map_double (l0 :: rest) i, List.length_map,
      sum_map_double]
    simp only [Function.comp_apply]
    ring

/-- C9: annual production is linear in the AC power series. Doubling every
value doubles `Analyzer.calculate_annual_production` and the
`annual_energy_kwh` that `FinancialAnalyzer` derives through
`aggregate_timeseries` (in both the single-series and the per-array tuple
shape), and a series of 8760 hourly samples at 1000 W yields exactly
8760 kWh. -/
theorem c9_annual_production_linear :
    (∀ l : List Sample,
      calculate_annual_production (l.map (fun s => { s with ac := 2 * s.ac })) =
        2 * calculate_annual_production l) ∧
    (∀ acData : OneOrMany (List ℚ),
      fin_annual_energy (aggregate_timeseries (doubleAc acData)) =
        2 * fin_annual_energy (aggregate_timeseries acData)) ∧
    calculate_annual_production
      (List.replicate 8760 ⟨1, 12, 1000, 0, 25⟩) = 8760 := by
  refine ⟨?_, ?_, ?_⟩
  · intro l
    unfold calculate_annual_production
    induction l with
    | nil => simp
    | cons s t ih =>
      simp only [List.map_cons, List.sum_cons] at *
      rw [ih]
      ring
  · intro acData
    match acData with
    | .one s => exact fin_annual_energy_double s
    | .many [] => simp [doubleAc, aggregate_timeseries, rowwiseMean,
        fin_annual_energy]
    | .many [s] => exact fin_annual_energy_double s
    | .many (l0 :: l1 :: rest) =>
      show fin_annual_energy (rowwiseMean ((l0 :: l1 :: rest).map
        (fun l => l.map (fun x => 2 * x)))) = _
      rw [rowwiseMean_double]
      exact fin_annual_energy_double _
  · unfold calculate_annual_production
    rw [List.map_replicate, List.sum_replicate]
    norm_num

end Solarize

namespace Solarize

/-- A score or percentage lying in [0, 100]. -/
def scoreIn (x : ℚ) : Prop := 0 ≤ x ∧ x ≤ 100

/-- A real-valued score lying in [0, 100]. -/
def scoreInR (x : ℝ) : Prop := 0 ≤ x ∧ x ≤ 100

lemma maximum?_spec {l : List ℚ} {m : ℚ} (h : l.maximum? = some m) :
    m ∈ l ∧ ∀ b ∈ l, b ≤ m := by
  have : Std.Antisymm (α := ℚ) (· ≤ ·) := ⟨fun h1 h2 => le_antisymm h1 h2⟩
  rw [List.max?_eq_some_iff] at h
  · exact h
  · exact fun a => le_refl a
  · exact fun a b => max_choice a b
  · exact fun a b c => max_le_iff

lemma minimum?_spec {l : List ℚ} {m : ℚ} (h : l.minimum? = some m) :
    m ∈ l ∧ ∀ b ∈ l, m ≤ b := by
  have : Std.Antisymm (α := ℚ) (· ≤ ·) := ⟨fun h1 h2 => le_antisymm h1 h2⟩
  rw [List.min?_eq_some_iff] at h
  · exact h
  · exact fun a => le_refl a
  · exact fun a b => min_choice a b
  · exact fun a b c => le_min_iff

lemma sum_map_filter_le {α : Type} (l : List α) (f : α → ℚ) (p : α → Bool)
    (hf : ∀ s ∈ l, 0 ≤ f s) :
    ((l.filter p).map f).sum ≤ (l.map f).sum := by
  induction l with
  | nil => simp
  | cons s t ih =>
    have iht := ih (fun x hx => hf x (List.mem_cons_of_mem _ hx))
    by_cases hp : p s
    · rw [List.filter_cons_of_pos hp]
      simp only [List.map_cons, List.sum_cons]
      exact add_le_add_left iht _
    · rw [List.filter_cons_of_neg (by simpa using hp)]
      simp only [List.map_cons, List.sum_cons]
      exact le_trans iht (le_add_of_nonneg_left (hf s (by simp)))

lemma system_efficiency_nonneg (l : List Sample)
    (hpos : ∀ s ∈ l, 0 ≤ s.ac ∧ 0 ≤ s.poa) :
    0 ≤ calculate_system_efficiency l := by
  simp only [calculate_system_efficiency]
  split
  · rename_i hpoa
    have hac : 0 ≤ (l.map (fun s => s.ac)).sum := by
      apply List.sum_nonneg
      intro x hx
      obtain ⟨s, hs, rfl⟩ := List.mem_map.mp hx
      exact (hpos s hs).1
    positivity
  · exact le_refl 0

lemma efficiency_score_bounds (l : List Sample)
    (hpos : ∀ s ∈ l, 0 ≤ s.ac ∧ 0 ≤ s.poa) :
    scoreIn (min 100 (calculate_system_efficiency l * 2)) := by
  constructor
  · apply le_min (by norm_num)
    have := system_efficiency_nonneg l hpos
    linarith
  · exact min_le_left _ _

lemma performance_ratio_bounds (l : List Sample) :
    scoreIn (calculate_performance_ratio l) := by
  simp only [calculate_performance_ratio]
  split
  · exact ⟨le_refl 0, by norm_num⟩
  · exact ⟨le_max_left _ _, max_le (by norm_num) (min_le_left _ _)⟩

lemma utilization_factor_bounds (l : List Sample) :
    scoreIn (calculate_utilization_factor l) := by
  simp only [calculate_utilization_factor]
  split
  · exact ⟨le_refl 0, by norm_num⟩
  · rename_i hne
    have hlen : 0 < (l.filter (fun s => s.poa > 10)).length := by
      rw [List.isEmpty_iff] at hne
      exact List.length_pos.mpr hne
    have hcnt : ((l.filter (fun s => s.poa > 10)).filter
        (fun s => s.ac > 0)).length ≤ (l.filter (fun s => s.poa > 10)).length :=
      List.length_filter_le _ _
    have hdivle : (((l.filter (fun s => s.poa > 10)).filter
          (fun s => s.ac > 0)).length : ℚ) /
        ((l.filter (fun s => s.poa > 10)).length : ℚ) ≤ 1 := by
      rw [div_le_one (by exact_mod_cast hlen)]
      exact_mod_cast hcnt
    constructor
    · positivity
    · calc (((l.filter (fun s => s.poa > 10)).filter
            (fun s => s.ac > 0)).length : ℚ) /
          ((l.filter (fun s => s.poa > 10)).length : ℚ) * 100
          ≤ 1 * 100 := by
            apply mul_le_mul_of_nonneg_right hdivle (by norm_num)
      _ = 100 := by norm_num

lemma peak_alignment_bounds (l : List Sample)
    (hpos : ∀ s ∈ l, 0 ≤ s.ac) :
    scoreIn (calculate_peak_alignment l) := by
  simp only [calculate_peak_alignment]
  split
  · rename_i htot
    have hsub0 : 0 ≤ ((l.filter (fun s => 10 ≤ s.hour ∧ s.hour ≤ 14)).map
        (fun s => s.ac / 1000)).sum := by
      apply List.sum_nonneg
      intro x hx
      obtain ⟨s, hs, rfl⟩ := List.mem_map.mp hx
      have := hpos s (List.mem_of_mem_filter hs)
      positivity
    have hsuble : ((l.filter (fun s => 10 ≤ s.hour ∧ s.hour ≤ 14)).map
        (fun s => s.ac / 1000)).sum ≤ (l.map (fun s => s.ac / 1000)).sum := by
      apply sum_map_filter_le
      intro s hs
      have := hpos s hs
      positivity
    constructor
    · positivity
    · rw [div_mul_eq_mul_div, div_le_iff htot]
      nlinarith
  · exact ⟨le_refl 0, by norm_num⟩

lemma capacity_factor_bounds (l : List Sample)
    (hpos : ∀ s ∈ l, 0 ≤ s.ac) (hlen : l.length ≤ 8760) :
    scoreIn (calculate_capacity_factor l) := by
  simp only [calculate_capacity_factor]
  cases hm : (l.map (fun s => s.ac)).maximum? with
  | none => exact ⟨le_refl 0, by norm_num⟩
  | some m =>
    simp only []
    split
    · rename_i hmpos
      obtain ⟨_, hmax⟩ := maximum?_spec hm
      have hann0 : 0 ≤ calculate_annual_production l := by
        apply List.sum_nonneg
        intro x hx
        obtain ⟨s, hs, rfl⟩ := List.mem_map.mp hx
        have := hpos s hs
        positivity
      have hannle : calculate_annual_production l ≤ (l.length : ℚ) * (m / 1000) := by
        have h1 := List.sum_le_card_nsmul (l.map (fun s => s.ac / 1000)) (m / 1000)
          (by
            intro x hx
            obtain ⟨s, hs, rfl⟩ := List.mem_map.mp hx
            have hsm : s.ac ≤ m := hmax s.ac (List.mem_map_of_mem _ hs)
            linarith)
        rw [List.length_map] at h1
        unfold calculate_annual_production
        rw [nsmul_eq_mul] at h1
        exact h1
      have hd : (0 : ℚ) < m / 1000 * 8760 := by positivity
      constructor
      · positivity
      · rw [div_mul_eq_mul_div, div_le_iff hd]
        have hcast : (l.length : ℚ) ≤ 8760 := by exact_mod_cast hlen
        nlinarith
    · exact ⟨le_refl 0, by norm_num⟩

end Solarize

namespace Solarize

lemma monthlyEnergy_nonneg (l : List Sample)
    (hpos : ∀ s ∈ l, 0 ≤ s.ac) :
    ∀ x ∈ monthlyEnergy l, 0 ≤ x := by
  intro x hx
  obtain ⟨m, _, rfl⟩ := List.mem_map.mp hx
  apply List.sum_nonneg
  intro y hy
  obtain ⟨s, hs, rfl⟩ := List.mem_map.mp hy
  have := hpos s (List.mem_of_mem_filter hs)
  positivity

lemma seasonal_consistency_bounds (l : List Sample)
    (hpos : ∀ s ∈ l, 0 ≤ s.ac) :
    scoreInR (calculate_seasonal_consistency l) := by
  simp only [calculate_seasonal_consistency]
  cases hm : (monthlyEnergy l).maximum? with
  | none => exact ⟨le_refl 0, by norm_num⟩
  | some mx =>
    simp only []
    split
    · rename_i hmx
      split
      · exact ⟨le_refl 0, by norm_num⟩
      · obtain ⟨hmem, _⟩ := maximum?_spec hm
        have hlenpos : 0 < (monthlyEnergy l).length :=
          List.length_pos_of_mem hmem
        have hsum : mx ≤ (monthlyEnergy l).sum :=
          List.single_le_sum (monthlyEnergy_nonneg l hpos) mx hmem
        have hmean : (0 : ℚ) < (monthlyEnergy l).sum / (monthlyEnergy l).length := by
          apply div_pos (lt_of_lt_of_le hmx hsum)
          exact_mod_cast hlenpos
        have hcv : (0 : ℝ) ≤ Real.sqrt ((sampleVariance (monthlyEnergy l) : ℚ) : ℝ) /
            (((monthlyEnergy l).sum / (monthlyEnergy l).length : ℚ) : ℝ) := by
          apply div_nonneg (Real.sqrt_nonneg _)
          exact_mod_cast le_of_lt hmean
        refine ⟨le_max_left _ _, max_le (by norm_num) ?_⟩
        nlinarith
    · exact ⟨le_refl 0, by norm_num⟩

lemma seasonal_variation_bounds (l : List Sample)
    (hpos : ∀ s ∈ l, 0 ≤ s.ac) :
    scoreIn (seasonal_variation_percent l) := by
  unfold seasonal_variation_percent
  rcases hmx : (monthlyEnergy l).maximum? with _ | mx <;>
    rcases hmn : (monthlyEnergy l).minimum? with _ | mn <;>
      simp only []
  · exact ⟨le_refl 0, by norm_num⟩
  · exact ⟨le_refl 0, by norm_num⟩
  · exact ⟨le_refl 0, by norm_num⟩
  · split
    · rename_i hmxpos
      obtain ⟨hmnmem, _⟩ := minimum?_spec hmn
      obtain ⟨_, hmaxall⟩ := maximum?_spec hmx
      have hmn0 : 0 ≤ mn := monthlyEnergy_nonneg l hpos mn hmnmem
      have hmnmx : mn ≤ mx := hmaxall mn hmnmem
      constructor
      · exact mul_nonneg (div_nonneg (by linarith) (le_of_lt hmxpos)) (by norm_num)
      · rw [div_mul_eq_mul_div, div_le_iff hmxpos]
        nlinarith
    · exact ⟨le_refl 0, by norm_num⟩

lemma upsertAdd_nonneg {acc : List (String × ℚ)} {key : String} {v : ℚ}
    (hacc : ∀ p ∈ acc, 0 ≤ p.2) (hv : 0 ≤ v) :
    ∀ p ∈ upsertAdd acc key v, 0 ≤ p.2 := by
  intro p hp
  unfold upsertAdd at hp
  split at hp
  · obtain ⟨q, hq, rfl⟩ := List.mem_map.mp hp
    by_cases hqk : q.1 = key
    · rw [if_pos hqk]
      have := hacc q hq
      show 0 ≤ q.2 + v
      linarith
    · rw [if_neg hqk]
      exact hacc q hq
  · rcases List.mem_append.mp hp with h | h
    · exact hacc p h
    · rw [List.mem_singleton.mp h]
      exact hv

lemma foldl_upsertAdd_nonneg :
    ∀ (pairs : List (ℕ × ℚ)) (acc : List (String × ℚ)),
      (∀ p ∈ acc, 0 ≤ p.2) → (∀ x ∈ pairs, 0 ≤ x.2) →
      ∀ p ∈ pairs.foldl (fun acc p => upsertAdd acc (seasonOf p.1) p.2) acc,
        0 ≤ p.2
  | [], acc, hacc, _ => hacc
  | x :: t, acc, hacc, hp => by
    apply foldl_upsertAdd_nonneg t
    · exact upsertAdd_nonneg hacc (hp x (by simp))
    · exact fun y hy => hp y (List.mem_cons_of_mem _ hy)

lemma seasonalProduction_nonneg (l : List Sample)
    (hpos : ∀ s ∈ l, 0 ≤ s.ac) :
    ∀ p ∈ seasonalProduction l, 0 ≤ p.2 := by
  apply foldl_upsertAdd_nonneg
  · intro p hp
    exact absurd hp (by simp)
  · intro x hx
    obtain ⟨m, _, rfl⟩ := List.mem_map.mp hx
    apply List.sum_nonneg
    intro y hy
    obtain ⟨s, hs, rfl⟩ := List.mem_map.mp hy
    have := hpos s (List.mem_of_mem_filter hs)
    positivity

lemma seasonal_distribution_bounds (l : List Sample)
    (hpos : ∀ s ∈ l, 0 ≤ s.ac) :
    ∀ p ∈ get_seasonal_distribution l, scoreIn p.2 := by
  intro p hp
  simp only [get_seasonal_distribution] at hp
  split at hp
  · rename_i htot
    obtain ⟨q, hq, rfl⟩ := List.mem_map.mp hp
    have hq0 : 0 ≤ q.2 := seasonalProduction_nonneg l hpos q hq
    have hqle : q.2 ≤ ((seasonalProduction l).map Prod.snd).sum := by
      apply List.single_le_sum
      · intro x hx
        obtain ⟨r, hr, rfl⟩ := List.mem_map.mp hx
        exact seasonalProduction_nonneg l hpos r hr
      · exact List.mem_map_of_mem _ hq
    apply round1F_bounds
    · positivity
    · rw [div_mul_eq_mul_div, div_le_iff htot]
      nlinarith
  · exact absurd hp (by simp)

end Solarize

namespace Solarize

lemma net_system_cost_nonneg (ac : List ℚ) (hpos : ∀ x ∈ ac, 0 ≤ x) :
    0 ≤ net_system_cost ac := by
  unfold net_system_cost total_system_cost fin_system_size_kw
  have hsz : 0 ≤ (match ac.maximum? with
      | none => 0
      | some m => m / 1000 : ℚ) := by
    cases hm : ac.maximum? with
    | none => exact le_refl 0
    | some m =>
      obtain ⟨hmem, _⟩ := maximum?_spec hm
      have := hpos m hmem
      simp only []
      positivity
  unfold system_cost_per_watt installation_cost tax_credit_rate state_rebate
  nlinarith

lemma fin_annual_energy_nonneg (ac : List ℚ) (hpos : ∀ x ∈ ac, 0 ≤ x) :
    0 ≤ fin_annual_energy ac := by
  apply List.sum_nonneg
  intro x hx
  obtain ⟨y, hy, rfl⟩ := List.mem_map.mp hx
  have := hpos y hy
  positivity

lemma irr_nonneg (ac : List ℚ) (hpos : ∀ x ∈ ac, 0 ≤ x) :
    0 ≤ calculate_internal_rate_of_return ac := by
  unfold calculate_internal_rate_of_return
  split
  · exact le_refl 0
  · rename_i hne
    have h0 : 0 ≤ net_system_cost ac := net_system_cost_nonneg ac hpos
    have hgt : 0 < net_system_cost ac := lt_of_le_of_ne h0 (Ne.symm hne)
    have he : 0 ≤ fin_annual_energy ac := fin_annual_energy_nonneg ac hpos
    unfold electricity_rate
    positivity

lemma payback_score_bounds (ac : List ℚ) :
    scoreIn (payback_period_score ac) := by
  unfold payback_period_score
  cases calculate_simple_payback ac with
  | none => exact ⟨le_refl 0, by norm_num⟩
  | some p => exact ⟨le_max_left _ _, max_le (by norm_num) (min_le_left _ _)⟩

lemma npv_score_bounds (ac : List ℚ) :
    scoreIn (npv_score ac) := by
  simp only [npv_score]
  split
  · exact ⟨le_max_left _ _, max_le (by norm_num) (min_le_left _ _)⟩
  · exact ⟨le_refl 0, by norm_num⟩

lemma irr_score_bounds (ac : List ℚ) (hpos : ∀ x ∈ ac, 0 ≤ x) :
    scoreIn (irr_score ac) := by
  unfold irr_score
  constructor
  · apply le_min (by norm_num)
    have := irr_nonneg ac hpos
    linarith
  · exact min_le_left _ _

lemma lcoe_score_bounds (ac : List ℚ) :
    scoreIn (lcoe_score ac) := by
  unfold lcoe_score
  cases calculate_levelized_cost_of_energy ac with
  | none => exact ⟨le_refl 0, by norm_num⟩
  | some lc => exact ⟨le_max_left _ _, max_le (by norm_num) (min_le_left _ _)⟩

lemma overall_financial_bounds (ac : List ℚ) (hpos : ∀ x ∈ ac, 0 ≤ x) :
    scoreIn (overall_financial_score ac) := by
  obtain ⟨h1a, h1b⟩ := payback_score_bounds ac
  obtain ⟨h2a, h2b⟩ := npv_score_bounds ac
  obtain ⟨h3a, h3b⟩ := irr_score_bounds ac hpos
  obtain ⟨h4a, h4b⟩ := lcoe_score_bounds ac
  unfold overall_financial_score
  constructor
  · nlinarith
  · nlinarith

end Solarize

namespace Solarize

lemma scoreIn_round1F {q : ℚ} (h : scoreIn q) : scoreIn (round1F q) :=
  round1F_bounds h.1 h.2

lemma scoreInR_round1F {x : ℝ} (h : scoreInR x) : scoreInR (round1F x) :=
  round1F_bounds h.1 h.2

/-- C6 counterexample: `system_efficiency_percent` is a percentage field of
`Analyzer.calculate_score`, yet for one perfectly ordinary daylight sample
(5 kW AC from 1000 W/m² POA — any system larger than one square metre) it is
500, far outside [0, 100]. -/
theorem c6_score_bounds_counterexample :
    (calculate_score [⟨6, 12, 5000, 1000, 25⟩]).system_efficiency_percent = 500 ∧
    ¬ scoreIn ((calculate_score [⟨6, 12, 5000, 1000, 25⟩]).system_efficiency_percent) := by
  have h : (calculate_score [⟨6, 12, 5000, 1000, 25⟩]).system_efficiency_percent =
      round1F (calculate_system_efficiency [⟨6, 12, 5000, 1000, 25⟩]) := rfl
  have h2 : calculate_system_efficiency [⟨6, 12, 5000, 1000, 25⟩] = 500 := by
    simp only [calculate_system_efficiency, List.map_cons, List.map_nil,
      List.sum_cons, List.sum_nil]
    norm_num
  have h3 : round1F (500 : ℚ) = 500 := by
    have h10 : (10 : ℚ) * 500 = ((5000 : ℤ) : ℚ) := by norm_num
    unfold round1F
    rw [h10]
    simp only [roundHalfEvenF, Int.floor_intCast]
    norm_num
  rw [h, h2, h3]
  constructor
  · rfl
  · intro hc
    have := hc.2
    norm_num at this

set_option maxHeartbeats 1000000 in
/-- C6 (amended): for inputs with nonnegative AC power and irradiance and at
most one year of hourly samples, every component score and overall score of
`Analyzer.calculate_score` and `FinancialAnalyzer.calculate_score` lies in
[0, 100], as do `performance_ratio_percent`, `peak_alignment_percent`,
`utilization_factor_percent`, `capacity_factor_percent`, the seasonal
variation percentage and the seasonal distribution percentages. (The raw
ratio metrics `system_efficiency_percent` and the IRR percentage are not
bounded by 100 — see the counterexample.) -/
theorem c6_scores_bounded (l : List Sample)
    (hpos : ∀ s ∈ l, 0 ≤ s.ac ∧ 0 ≤ s.poa)
    (hlen : l.length ≤ 8760) :
    scoreIn ((calculate_score l).efficiency_score) ∧
    scoreInR ((calculate_score l).seasonal_consistency_score) ∧
    scoreIn ((calculate_score l).system_performance_score) ∧
    scoreIn ((calculate_score l).utilization_score) ∧
    scoreInR ((calculate_score l).overall_score) ∧
    scoreIn ((calculate_score l).performance_ratio_percent) ∧
    scoreIn ((calculate_score l).peak_alignment_percent) ∧
    scoreIn ((calculate_score l).utilization_factor_percent) ∧
    scoreIn ((calculate_score l).capacity_factor_percent) ∧
    scoreIn (round1F (seasonal_variation_percent l)) ∧
    (∀ p ∈ get_seasonal_distribution l, scoreIn p.2) ∧
    scoreIn ((fin_calculate_score (l.map (fun s => s.ac))).payback_period_score) ∧
    scoreIn ((fin_calculate_score (l.map (fun s => s.ac))).npv_score) ∧
    scoreIn ((fin_calculate_score (l.map (fun s => s.ac))).irr_score) ∧
    scoreIn ((fin_calculate_score (l.map (fun s => s.ac))).lcoe_score) ∧
    scoreIn ((fin_calculate_score (l.map (fun s => s.ac))).overall_financial_score) := by
  have hpac : ∀ s ∈ l, 0 ≤ s.ac := fun s hs => (hpos s hs).1
  have hposac : ∀ x ∈ l.map (fun s => s.ac), 0 ≤ x := by
    intro x hx
    obtain ⟨s, hs, rfl⟩ := List.mem_map.mp hx
    exact hpac s hs
  have h1 : (calculate_score l).efficiency_score =
      round1F (min 100 (calculate_system_efficiency l * 2)) := rfl
  have h2 : (calculate_score l).seasonal_consistency_score =
      round1F (calculate_seasonal_consistency l) := rfl
  have h3 : (calculate_score l).system_performance_score =
      round1F (calculate_performance_ratio l) := rfl
  have h4 : (calculate_score l).utilization_score =
      round1F (calculate_utilization_factor l) := rfl
  have h5 : (calculate_score l).overall_score =
      round1F (((min 100 (calculate_system_efficiency l * 2) : ℚ) : ℝ) * (25 / 100) +
        calculate_seasonal_consistency l * (25 / 100) +
        ((calculate_performance_ratio l : ℚ) : ℝ) * (25 / 100) +
        ((calculate_utilization_factor l : ℚ) : ℝ) * (25 / 100)) := rfl
  have h6 : (calculate_score l).performance_ratio_percent =
      round1F (calculate_performance_ratio l) := rfl
  have h7 : (calculate_score l).peak_alignment_percent =
      round1F (calculate_peak_alignment l) := rfl
  have h8 : (calculate_score l).utilization_factor_percent =
      round1F (calculate_utilization_factor l) := rfl
  have h9 : (calculate_score l).capacity_factor_percent =
      round1F (calculate_capacity_factor l) := rfl
  have h12 : (fin_calculate_score (l.map (fun s => s.ac))).payback_period_score =
      round1F (payback_period_score (l.map (fun s => s.ac))) := rfl
  have h13 : (fin_calculate_score (l.map (fun s => s.ac))).npv_score =
      round1F (npv_score (l.map (fun s => s.ac))) := rfl
  have h14 : (fin_calculate_score (l.map (fun s => s.ac))).irr_score =
      round1F (irr_score (l.map (fun s => s.ac))) := rfl
  have h15 : (fin_calculate_score (l.map (fun s => s.ac))).lcoe_score =
      round1F (lcoe_score (l.map (fun s => s.ac))) := rfl
  have h16 : (fin_calculate_score (l.map (fun s => s.ac))).overall_financial_score =
      round1F (overall_financial_score (l.map (fun s => s.ac))) := rfl
  rw [h1, h2, h3, h4, h5, h6, h7, h8, h9, h12, h13, h14, h15, h16]
  refine ⟨?_, ?_, ?_, ?_, ?_, ?_, ?_, ?_, ?_, ?_, ?_, ?_, ?_, ?_, ?_, ?_⟩
  · exact scoreIn_round1F (efficiency_score_bounds l hpos)
  · exact scoreInR_round1F (seasonal_consistency_bounds l hpac)
  · exact scoreIn_round1F (performance_ratio_bounds l)
  · exact scoreIn_round1F (utilization_factor_bounds l)
  · apply scoreInR_round1F
    obtain ⟨h1a, h1b⟩ := efficiency_score_bounds l hpos
    obtain ⟨h2a, h2b⟩ := seasonal_consistency_bounds l hpac
    obtain ⟨h3a, h3b⟩ := performance_ratio_bounds l
    obtain ⟨h4a, h4b⟩ := utilization_factor_bounds l
    have c1a : (0 : ℝ) ≤ (min 100 (calculate_system_efficiency l * 2) : ℚ) := by
      exact_mod_cast h1a
    have c1b : ((min 100 (calculate_system_efficiency l * 2) : ℚ) : ℝ) ≤ 100 := by
      exact_mod_cast h1b
    have c3a : (0 : ℝ) ≤ (calculate_performance_ratio l : ℚ) := by
      exact_mod_cast h3a
    have c3b : ((calculate_performance_ratio l : ℚ) : ℝ) ≤ 100 := by
      exact_mod_cast h3b
    have c4a : (0 : ℝ) ≤ (calculate_utilization_factor l : ℚ) := by
      exact_mod_cast h4a
    have c4b : ((calculate_utilization_factor l : ℚ) : ℝ) ≤ 100 := by
      exact_mod_cast h4b
    constructor
    · nlinarith
    · nlinarith
  · exact scoreIn_round1F (performance_ratio_bounds l)
  · exact scoreIn_round1F (peak_alignment_bounds l hpac)
  · exact scoreIn_round1F (utilization_factor_bounds l)
  · exact scoreIn_round1F (capacity_factor_bounds l hpac hlen)
  · exact scoreIn_round1F (seasonal_variation_bounds l hpac)
  · exact seasonal_distribution_bounds l hpac
  · exact scoreIn_round1F (payback_score_bounds _)
  · exact scoreIn_round1F (npv_score_bounds _)
  · exact scoreIn_round1F (irr_score_bounds _ hposac)
  · exact scoreIn_round1F (lcoe_score_bounds _)
  · exact scoreIn_round1F (overall_financial_bounds _ hposac)

/-- C6 witness: the amended bound at a concrete two-month input. -/
theorem c6_scores_bounded_witness :
    (∀ s ∈ [(⟨1, 12, 100, 500, 25⟩ : Sample), ⟨2, 12, 100, 500, 25⟩],
      0 ≤ s.ac ∧ 0 ≤ s.poa) ∧
    ([(⟨1, 12, 100, 500, 25⟩ : Sample), ⟨2, 12, 100, 500, 25⟩].length ≤ 8760) ∧
    scoreIn ((calculate_score
      [(⟨1, 12, 100, 500, 25⟩ : Sample), ⟨2, 12, 100, 500, 25⟩]).efficiency_score) :=
  ⟨by decide, by decide,
   (c6_scores_bounded [⟨1, 12, 100, 500, 25⟩, ⟨2, 12, 100, 500, 25⟩]
     (by decide) (by decide)).1⟩

end Solarize

namespace Solarize

/-- One element of the argument to `normalize_pv_tuple` (`plots.py` lines
13-50): a pandas Series (with a name, promoted to a one-column frame by
`to_frame()`), a DataFrame, or any other object (which raises). -/
inductive PVElem where
  | ser (name : String) (rows : List (ℕ × Option ℚ))
  | frame (f : QFrame)
  | other
  deriving DecidableEq, Repr

/-- The argument to `normalize_pv_tuple`: a tuple of elements, a single
Series, a single DataFrame, or any other object. -/
inductive PVData where
  | tup (l : List PVElem)
  | ser (name : String) (rows : List (ℕ × Option ℚ))
  | frame (f : QFrame)
  | other
  deriving DecidableEq, Repr

/-- `Series.to_frame()`: the one-column DataFrame of a named series. -/
def seriesFrame (name : String) (rows : List (ℕ × Option ℚ)) : QFrame :=
  ⟨[name], rows.map (fun tv => (tv.1, [tv.2]))⟩

/-- The body of the per-element loop of `normalize_pv_tuple`: a Series is
promoted with `to_frame()`, a DataFrame is kept, anything else raises
`TypeError` immediately. -/
def elemFrame : PVElem → Except String QFrame
  | .ser name rows => .ok (seriesFrame name rows)
  | .frame f => .ok f
  | .other => .error "TypeError: Unexpected type in tuple"

/-- The loop of `normalize_pv_tuple` over the tuple, stopping at the first
bad element. -/
def elemFrames : List PVElem → Except String (List QFrame)
  | [] => .ok []
  | e :: rest =>
    match elemFrame e with
    | .error msg => .error msg
    | .ok f =>
      match elemFrames rest with
      | .error msg => .error msg
      | .ok fs => .ok (f :: fs)

/-- The total counterpart of `elemFrame` on the well-typed elements. -/
def elemFrameD : PVElem → QFrame
  | .ser name rows => seriesFrame name rows
  | .frame f => f
  | .other => ⟨[], []⟩

/-- The column union of `pd.concat(dfs, axis=0)` (non-identical columns,
`sort=False`): columns in order of first appearance. -/
def colsUnion (fs : List QFrame) : List String :=
  fs.foldl (fun acc f => acc ++ f.cols.filter (fun c => !(acc.contains c))) []

/-- Reading one column of one row, NaN (`none`) when the frame lacks the
column. -/
def cellLookup (cols : List String) (vals : List (Option ℚ)) (c : String) :
    Option ℚ :=
  match cols.findIdx? (fun c0 => c0 = c) with
  | none => none
  | some i => (vals[i]?).getD none

/-- The stacked frame `pd.concat(dfs, axis=0, keys=range(len(dfs)))`: every
row of every input frame, tagged with its level-1 key (the timestamp) and
carrying its own frame's columns. -/
def stackedRows (fs : List QFrame) :
    List (ℕ × (List String × List (Option ℚ))) :=
  (fs.map (fun f => f.rows.map (fun tc => (tc.1, (f.cols, tc.2))))).join

/-- `Series.mean()` with pandas' default `skipna=True`: NaN entries are
excluded; all-NaN means NaN. -/
def meanOpt (l : List (Option ℚ)) : Option ℚ :=
  let vs := l.filterMap id
  if vs.isEmpty then none else some (vs.sum / vs.length)

/-- `aligned.groupby(level=1).mean()`: group keys are the distinct
timestamps, sorted ascending; each cell is the NaN-skipping mean of the
stacked values for that timestamp and column. -/
def stackMean (fs : List QFrame) : QFrame :=
  let keys := List.insertionSort (· ≤ ·) ((stackedRows fs).map Prod.fst).dedup
  let cols := colsUnion fs
  ⟨cols, keys.map (fun t =>
    (t, cols.map (fun c =>
      meanOpt ((stackedRows fs).filterMap
        (fun r => if r.1 = t then some (cellLookup r.2.1 r.2.2 c) else none)))))⟩

/-- `normalize_pv_tuple` (`plots.py` lines 13-50). -/
def normalize_pv_tuple : PVData → Except String QFrame
  | .tup l =>
    match elemFrames l with
    | .error msg => .error msg
    | .ok dfs => .ok (stackMean dfs)
  | .ser name rows => .ok (seriesFrame name rows)
  | .frame f => .ok f
  | .other => .error "TypeError: Cannot normalize type"

/-- The cell of one input frame at a timestamp and column: NaN when the
frame has no row there or lacks the column. -/
def rowCellAt (cols : List String) (rows : List (ℕ × List (Option ℚ)))
    (t : ℕ) (c : String) : Option ℚ :=
  match rows.find? (fun tc => tc.1 = t) with
  | none => none
  | some tc => cellLookup cols tc.2 c

/-- `rowCellAt` on a whole frame. -/
def frameCellAt (f : QFrame) (t : ℕ) (c : String) : Option ℚ :=
  rowCellAt f.cols f.rows t c

end Solarize

namespace Solarize

lemma elemFrames_ok : ∀ {l : List PVElem},
    (∀ e ∈ l, e ≠ PVElem.other) → elemFrames l = .ok (l.map elemFrameD)
  | [], _ => rfl
  | e :: rest, hno => by
    have he : elemFrame e = .ok (elemFrameD e) := by
      cases e with
      | ser n r => rfl
      | frame f => rfl
      | other => exact absurd rfl (hno .other (by simp))
    have ih := elemFrames_ok (fun x hx => hno x (List.mem_cons_of_mem _ hx))
    simp only [elemFrames, he, ih, List.map_cons]

lemma flatten_map_singleton {α β : Type} (g : α → β) (l : List α) :
    (l.map (fun a => [g a])).flatten = l.map g := by
  induction l with
  | nil => rfl
  | cons a t ih => simp [ih]

lemma rows_filterMap_cell (cols : List String)
    (rows : List (ℕ × List (Option ℚ))) (t : ℕ) (c : String)
    (hnd : (rows.map Prod.fst).Nodup) (ht : t ∈ rows.map Prod.fst) :
    rows.filterMap
        (fun tc => if tc.1 = t then some (cellLookup cols tc.2 c) else none) =
      [rowCellAt cols rows t c] := by
  induction rows with
  | nil => simp at ht
  | cons tc rest ih =>
    simp only [List.map_cons, List.nodup_cons] at hnd
    by_cases h : tc.1 = t
    · simp only [List.filterMap_cons, if_pos h]
      have hrest : rest.filterMap
          (fun tc' => if tc'.1 = t then some (cellLookup cols tc'.2 c) else none) =
            [] := by
        rw [List.filterMap_eq_nil_iff]
        intro x hx
        rw [if_neg]
        intro hxt
        exact hnd.1 (by
          rw [h, ← hxt]
          exact List.mem_map_of_mem _ hx)
      rw [hrest]
      unfold rowCellAt
      rw [List.find?_cons_of_pos _ (by simp [h])]
    · simp only [List.filterMap_cons, if_neg h]
      have ht' : t ∈ rest.map Prod.fst := by
        simp only [List.map_cons, List.mem_cons] at ht
        rcases ht with h1 | h1
        · exact absurd h1.symm h
        · exact h1
      rw [ih hnd.2 ht']
      unfold rowCellAt
      rw [List.find?_cons_of_neg _ (by simp [h])]

lemma stackMean_spec (dfs : List QFrame) (ts : List ℕ)
    (hne : dfs ≠ [])
    (hts : ∀ f ∈ dfs, f.rows.map Prod.fst = ts)
    (hsorted : ts.Pairwise (· < ·)) :
    stackMean dfs = ⟨colsUnion dfs, ts.map (fun t => (t, (colsUnion dfs).map
      (fun c => meanOpt (dfs.map (fun f => frameCellAt f t c)))))⟩ := by
  have hndts : ts.Nodup := hsorted.imp ne_of_lt
  have hmemstack : ∀ a : ℕ,
      a ∈ (stackedRows dfs).map Prod.fst ↔ a ∈ ts := by
    intro a
    unfold stackedRows
    rw [List.map_join]
    constructor
    · intro ha
      obtain ⟨li, hli, hali⟩ := List.mem_flatten.mp ha
      obtain ⟨lj, hlj, rfl⟩ := List.mem_map.mp hli
      obtain ⟨f, hf, rfl⟩ := List.mem_map.mp hlj
      obtain ⟨tc, htc, rfl⟩ := List.mem_map.mp (by
        rw [List.map_map] at hali
        exact hali)
      have : tc.1 ∈ f.rows.map Prod.fst := List.mem_map_of_mem _ htc
      rw [hts f hf] at this
      exact this
    · intro ha
      obtain ⟨f0, hf0⟩ := List.exists_mem_of_ne_nil dfs hne
      have ha0 : a ∈ f0.rows.map Prod.fst := by rw [hts f0 hf0]; exact ha
      obtain ⟨tc, htc, rfl⟩ := List.mem_map.mp ha0
      apply List.mem_flatten.mpr
      refine ⟨(f0.rows.map (fun tc => (tc.1, (f0.cols, tc.2)))).map Prod.fst, ?_, ?_⟩
      · exact List.mem_map_of_mem _ (List.mem_map_of_mem _ hf0)
      · rw [List.map_map]
        exact List.mem_map_of_mem _ htc
  have hkeys : List.insertionSort (· ≤ ·)
      ((stackedRows dfs).map Prod.fst).dedup = ts := by
    refine eq_of_pairwise_lt_of_mem_iff ?_ hsorted ?_
    · have h1 : (List.insertionSort (· ≤ ·)
          ((stackedRows dfs).map Prod.fst).dedup).Sorted (· ≤ ·) :=
        List.sorted_insertionSort _ _
      have h2 : (List.insertionSort (· ≤ ·)
          ((stackedRows dfs).map Prod.fst).dedup).Nodup :=
        (List.perm_insertionSort _ _).symm.nodup (List.nodup_dedup _)
      exact h1.lt_of_le h2
    · intro a
      rw [(List.perm_insertionSort _ _).mem_iff, List.mem_dedup]
      exact hmemstack a
  have hcell : ∀ t ∈ ts, ∀ c : String,
      (stackedRows dfs).filterMap
          (fun r => if r.1 = t then some (cellLookup r.2.1 r.2.2 c) else none) =
        dfs.map (fun f => frameCellAt f t c) := by
    intro t htm c
    unfold stackedRows
    rw [List.filterMap_join, List.map_map]
    have hper : ∀ f ∈ dfs,
        ((List.filterMap
            (fun r : ℕ × (List String × List (Option ℚ)) =>
              if r.1 = t then some (cellLookup r.2.1 r.2.2 c) else none)) ∘
          (fun f : QFrame => f.rows.map (fun tc => (tc.1, (f.cols, tc.2))))) f =
          [frameCellAt f t c] := by
      intro f hf
      show (f.rows.map (fun tc => (tc.1, (f.cols, tc.2)))).filterMap _ =
        [frameCellAt f t c]
      rw [List.filterMap_map]
      have : t ∈ f.rows.map Prod.fst := by rw [hts f hf]; exact htm
      have hnd : (f.rows.map Prod.fst).Nodup := by rw [hts f hf]; exact hndts
      exact rows_filterMap_cell f.cols f.rows t c hnd this
    rw [List.map_congr_left hper, flatten_map_singleton]
  show (⟨_, _⟩ : QFrame) = _
  rw [hkeys]
  congr 1
  apply List.map_congr_left
  intro t htm
  congr 1
  apply List.map_congr_left
  intro c _
  rw [hcell t htm c]

end Solarize

namespace Solarize

/-- C7: `normalize_pv_tuple` has exactly the three specified cases. A single
DataFrame is returned unchanged and a single Series is promoted to its
one-column frame; a tuple of per-array tables/series over a shared timestamp
index is collapsed to the column-wise mean across arrays at each timestamp,
where an array lacking a column (or holding NaN there) is excluded from that
position's mean — a mean, not a sum; any other input shape, at top level or
inside the tuple, raises `TypeError`. -/
theorem c7_normalize_cases :
    (∀ f, normalize_pv_tuple (.frame f) = .ok f) ∧
    (∀ name rows, normalize_pv_tuple (.ser name rows) =
      .ok (seriesFrame name rows)) ∧
    (∀ (l : List PVElem) (ts : List ℕ),
      l ≠ [] → (∀ e ∈ l, e ≠ PVElem.other) →
      (∀ f ∈ l.map elemFrameD, f.rows.map Prod.fst = ts) →
      ts.Pairwise (· < ·) →
      normalize_pv_tuple (.tup l) =
        .ok ⟨colsUnion (l.map elemFrameD),
          ts.map (fun t => (t, (colsUnion (l.map elemFrameD)).map (fun c =>
            meanOpt ((l.map elemFrameD).map (fun f => frameCellAt f t c)))))⟩) ∧
    (normalize_pv_tuple .other = .error "TypeError: Cannot normalize type") ∧
    (∀ l : List PVElem, PVElem.other ∈ l →
      ∃ e, normalize_pv_tuple (.tup l) = .error e) := by
  refine ⟨fun f => rfl, fun name rows => rfl, ?_, rfl, ?_⟩
  · intro l ts hlne hno hts hsorted
    have hmap : l.map elemFrameD ≠ [] := by
      cases l with
      | nil => exact absurd rfl hlne
      | cons e rest => simp
    simp only [normalize_pv_tuple, elemFrames_ok hno]
    rw [stackMean_spec (l.map elemFrameD) ts hmap hts hsorted]
  · intro l hmem
    induction l with
    | nil => exact absurd hmem (by simp)
    | cons e rest ih =>
      rcases List.mem_cons.mp hmem with h | h
      · subst h
        exact ⟨"TypeError: Unexpected type in tuple", by
          simp [normalize_pv_tuple, elemFrames, elemFrame]⟩
      · cases he : elemFrame e with
        | error m =>
          exact ⟨m, by simp [normalize_pv_tuple, elemFrames, he]⟩
        | ok f =>
          obtain ⟨msg, hmsg⟩ := ih h
          rcases hfr : elemFrames rest with m | fs
          · exact ⟨m, by simp [normalize_pv_tuple, elemFrames, he, hfr]⟩
          · exfalso
            simp only [normalize_pv_tuple, hfr] at hmsg
            simp at hmsg

end Solarize

namespace Solarize

/-- Concrete two-array input for the C7 witness: the second array has a
column `b` the first lacks, and a NaN in column `a` at the second timestamp. -/
def c7l : List PVElem :=
  [.frame ⟨["a"], [(0, [some 2]), (1, [some 4])]⟩,
   .frame ⟨["a", "b"], [(0, [some 6, some 10]), (1, [none, some 20])]⟩]

/-- C7 witness: the tuple case of the normalizer at a concrete two-array
input with a partially shared column set. -/
theorem c7_normalize_cases_witness :
    (c7l ≠ [] ∧ (∀ e ∈ c7l, e ≠ PVElem.other) ∧
      (∀ f ∈ c7l.map elemFrameD, f.rows.map Prod.fst = [0, 1]) ∧
      ([0, 1] : List ℕ).Pairwise (· < ·)) ∧
    normalize_pv_tuple (.tup c7l) =
      .ok ⟨colsUnion (c7l.map elemFrameD),
        [0, 1].map (fun t => (t, (colsUnion (c7l.map elemFrameD)).map (fun c =>
          meanOpt ((c7l.map elemFrameD).map (fun f => frameCellAt f t c)))))⟩ :=
  ⟨⟨by decide, by decide, by decide, by decide⟩,
   c7_normalize_cases.2.2.1 c7l [0, 1] (by decide) (by decide) (by decide)
     (by decide)⟩

end Solarize

namespace Solarize

/-- A JSON-encodable Python value (`albedo` tuples, `spectral_modifier`,
`tracking` configs). `null` is Python `None`. -/
inductive JVal where
  | null
  | num (q : ℚ)
  | str (s : String)
  | arr (l : List JVal)
  | obj (l : List (String × JVal))

/-- A value stored in a metadata column. `jsonText v` stands for the string
`json.dumps(v)` — kept abstract so that `json.loads` is its exact inverse. -/
inductive DBVal where
  | nullv
  | num (q : ℚ)
  | str (s : String)
  | jsonText (v : JVal)

/-- The `albedo` attribute of a simulation result: a scalar or a per-array
tuple. -/
inductive AlbedoIn where
  | scalar (q : ℚ)
  | tup (l : List ℚ)
  deriving DecidableEq

/-- The metadata attributes `save_modelchain_result` reads off the result
object (lines 70-76). -/
structure MetaInput where
  simulation_name : String
  description : String
  albedo : AlbedoIn
  losses : ℚ
  spectral_modifier : JVal
  tracking : Option JVal

/-- One row of `modelchain_results`. -/
structure MetaRow where
  rid : ℕ
  simulation_name : String
  description : String
  created_at : ℕ
  albedo : DBVal
  losses : DBVal
  spectral_modifier : DBVal
  tracking : DBVal

/-- The metadata INSERT of `save_modelchain_result` (lines 65-78):
`json.dumps(result.albedo) if isinstance(result.albedo, tuple) else
result.albedo`; `json.dumps(result.spectral_modifier)` always (so Python
`None` is stored as the string `"null"`); `None if result.tracking is None
else json.dumps(result.tracking)`. -/
def saveMeta (rid created : ℕ) (inp : MetaInput) : MetaRow :=
  { rid := rid
    simulation_name := inp.simulation_name
    description := inp.description
    created_at := created
    albedo :=
      match inp.albedo with
      | .tup l => .jsonText (.arr (l.map JVal.num))
      | .scalar q => .num q
    losses := .num inp.losses
    spectral_modifier := .jsonText inp.spectral_modifier
    tracking :=
      match inp.tracking with
      | none => .nullv
      | some t => .jsonText t }

/-- Python truthiness of a fetched column value (`if row[6]`): NULL and the
empty string are falsy; a `json.dumps` result is a nonempty string, hence
truthy. -/
def dbTruthy : DBVal → Bool
  | .nullv => false
  | .num q => q ≠ 0
  | .str s => s ≠ ""
  | .jsonText _ => true

/-- `json.loads` on a stored column value (only ever applied to JSON text in
the fetch path). -/
def jsonLoads : DBVal → Option JVal
  | .jsonText v => some v
  | _ => none

/-- A value of the dict `fetch_modelchain_result` builds. -/
inductive Entry where
  | str (s : String)
  | dbv (v : DBVal)
  | time (t : ℕ)
  | jopt (v : Option JVal)
  | ts (v : Option (OneOrMany QFrame))

/-- The seven metadata entries of the fetched dict (lines 178-186): the raw
row values for everything except `tracking`, which is
`json.loads(row[6]) if row[6] else None`. -/
def metaEntries (m : MetaRow) : List (String × Entry) :=
  [("simulation_name", .str m.simulation_name),
   ("description", .str m.description),
   ("created_at", .time m.created_at),
   ("albedo", .dbv m.albedo),
   ("losses", .dbv m.losses),
   ("spectral_modifier", .dbv m.spectral_modifier),
   ("tracking", .jopt (if dbTruthy m.tracking then jsonLoads m.tracking else none))]

/-- The relational store: the metadata table and the eight metric tables. -/
structure DB where
  meta : List MetaRow
  ac_aoi : List SRow
  airmass : List SRow
  cell_temperature : List SRow
  dc_output : List SRow
  diode_params : List SRow
  total_irradiance : List SRow
  solar_position : List SRow
  weather : List SRow

/-- `fetch_modelchain_result` (`manager.py` lines 165-210): `None` when no
metadata row exists for `result_id`; otherwise the metadata entries followed
by the eight metric entries, with the plane-of-array irradiance table
`total_irradiance` stored under the key `irradiance`. `sch` assigns each
table name its schema's data columns (what the fetch's `SELECT *` returns);
for `ac_aoi` those are provably `ac_aoi_cols`. -/
def fetch_modelchain_result (sch : String → List String) (db : DB) (rid : ℕ) :
    Except String (Option (List (String × Entry))) := do
  match db.meta.find? (fun m => m.rid == rid) with
  | none => return none
  | some m =>
    let acv ← fetch_timeseries (sch "ac_aoi") db.ac_aoi rid
    let amv ← fetch_timeseries (sch "airmass") db.airmass rid
    let ctv ← fetch_timeseries (sch "cell_temperature") db.cell_temperature rid
    let dcv ← fetch_timeseries (sch "dc_output") db.dc_output rid
    let dpv ← fetch_timeseries (sch "diode_params") db.diode_params rid
    let tiv ← fetch_timeseries (sch "total_irradiance") db.total_irradiance rid
    let spv ← fetch_timeseries (sch "solar_position") db.solar_position rid
    let wv ← fetch_timeseries (sch "weather") db.weather rid
    return some (metaEntries m ++
      [("ac_aoi", .ts acv), ("airmass", .ts amv),
       ("cell_temperature", .ts ctv), ("dc", .ts dcv),
       ("diode_params", .ts dpv), ("irradiance", .ts tiv),
       ("solar_position", .ts spv), ("weather", .ts wv)])

end Solarize

namespace Solarize

/-- An empty (for this `result_id`) metric table fetches as `None`
(`if df.empty: return None`), whatever its schema. -/
theorem fetch_timeseries_empty {schema : List String} {tbl : List SRow}
    {rid : ℕ} (h : (ridRows tbl rid).isEmpty) :
    fetch_timeseries schema tbl rid = .ok none := by
  simp only [fetch_timeseries, h, if_true]

/-- C8: the claim is false at a concrete stored result. For an input with
`albedo = (3, 7)` and `spectral_modifier = None`, the fetched `albedo` entry
is the raw stored JSON text (a string), not the structured tuple — no entry of
the decoded (`jopt`) kind — and the fetched `spectral_modifier` entry is the
JSON text `"null"` (a truthy four-character string), not SQL NULL / Python
`None`: only `tracking` passes through `json.loads` on fetch. -/
theorem c8_metadata_decode_counterexample :
    ((metaEntries (saveMeta 1 0
        ⟨"pv", "", .tup [3, 7], 14, JVal.null, none⟩)).lookup "albedo" =
      some (.dbv (.jsonText (.arr [.num 3, .num 7]))) ∧
     ∀ v : Option JVal,
       Entry.dbv (.jsonText (.arr [.num 3, .num 7])) ≠ Entry.jopt v) ∧
    ((metaEntries (saveMeta 1 0
        ⟨"pv", "", .tup [3, 7], 14, JVal.null, none⟩)).lookup "spectral_modifier" =
      some (.dbv (.jsonText .null)) ∧
     Entry.dbv (.jsonText .null) ≠ Entry.dbv .nullv) := by
  refine ⟨⟨rfl, fun v h => ?_⟩, rfl, fun h => ?_⟩ <;> simp at h

end Solarize

namespace Solarize

/-- C8 (amended): for every stored result, the fetched metadata is the raw
stored row except `tracking`: a tuple `albedo` and `spectral_modifier` come
back as JSON text exactly as stored (a Python-`None` spectral modifier as the
string `"null"`), a scalar `albedo` and `losses` come back as numbers, and
only `tracking` is decoded — `json.loads(row[6]) if row[6] else None` — so a
`None` tracking stored as SQL NULL round-trips to `None` and a config
round-trips to its structured form. -/
theorem c8_metadata_decode (rid created : ℕ) (inp : MetaInput) :
    metaEntries (saveMeta rid created inp) =
      [("simulation_name", .str inp.simulation_name),
       ("description", .str inp.description),
       ("created_at", .time created),
       ("albedo", .dbv (match inp.albedo with
          | .tup l => .jsonText (.arr (l.map JVal.num))
          | .scalar q => .num q)),
       ("losses", .dbv (.num inp.losses)),
       ("spectral_modifier", .dbv (.jsonText inp.spectral_modifier)),
       ("tracking", .jopt inp.tracking)] := by
  cases htr : inp.tracking <;>
    simp [metaEntries, saveMeta, dbTruthy, jsonLoads, htr]

end Solarize

namespace Solarize

/-- C10 (amended): for every `result_id` whose metadata row exists and none
of whose metric fetches raises — i.e. every nonempty metric table for the
`result_id` carries at least one non-NULL `array_name` row —
`fetch_modelchain_result` returns a dict with exactly the fifteen keys
`simulation_name, description, created_at, albedo, losses,
spectral_modifier, tracking, ac_aoi, airmass, cell_temperature, dc,
diode_params, irradiance, solar_position, weather` in that order; each
metric key whose table holds no rows for the `result_id` maps to `None`, and
the plane-of-array irradiance table `total_irradiance` appears under the key
`irradiance`, holding exactly that table's fetch. -/
theorem c10_fetch_result_dict (sch : String → List String) (db : DB)
    (rid : ℕ) (m : MetaRow)
    (v1 v2 v3 v4 v5 v6 v7 v8 : Option (OneOrMany QFrame))
    (hm : db.meta.find? (fun r => r.rid == rid) = some m)
    (h1 : fetch_timeseries (sch "ac_aoi") db.ac_aoi rid = .ok v1)
    (h2 : fetch_timeseries (sch "airmass") db.airmass rid = .ok v2)
    (h3 : fetch_timeseries (sch "cell_temperature") db.cell_temperature rid =
      .ok v3)
    (h4 : fetch_timeseries (sch "dc_output") db.dc_output rid = .ok v4)
    (h5 : fetch_timeseries (sch "diode_params") db.diode_params rid = .ok v5)
    (h6 : fetch_timeseries (sch "total_irradiance") db.total_irradiance rid =
      .ok v6)
    (h7 : fetch_timeseries (sch "solar_position") db.solar_position rid =
      .ok v7)
    (h8 : fetch_timeseries (sch "weather") db.weather rid = .ok v8) :
    ∃ d, fetch_modelchain_result sch db rid = .ok (some d) ∧
      d = metaEntries m ++
        [("ac_aoi", .ts v1), ("airmass", .ts v2),
         ("cell_temperature", .ts v3), ("dc", .ts v4),
         ("diode_params", .ts v5), ("irradiance", .ts v6),
         ("solar_position", .ts v7), ("weather", .ts v8)] ∧
      d.map Prod.fst =
        ["simulation_name", "description", "created_at", "albedo", "losses",
         "spectral_modifier", "tracking", "ac_aoi", "airmass",
         "cell_temperature", "dc", "diode_params", "irradiance",
         "solar_position", "weather"] ∧
      ((ridRows db.ac_aoi rid).isEmpty → v1 = none) ∧
      ((ridRows db.airmass rid).isEmpty → v2 = none) ∧
      ((ridRows db.cell_temperature rid).isEmpty → v3 = none) ∧
      ((ridRows db.dc_output rid).isEmpty → v4 = none) ∧
      ((ridRows db.diode_params rid).isEmpty → v5 = none) ∧
      ((ridRows db.total_irradiance rid).isEmpty → v6 = none) ∧
      ((ridRows db.solar_position rid).isEmpty → v7 = none) ∧
      ((ridRows db.weather rid).isEmpty → v8 = none) := by
  refine ⟨_, ?_, rfl, by simp [metaEntries], ?_, ?_, ?_, ?_, ?_, ?_, ?_, ?_⟩
  · simp only [fetch_modelchain_result, hm, h1, h2, h3, h4, h5, h6, h7, h8,
      bind, Except.bind, pure, Except.pure]
  all_goals
    intro hE
  · exact Except.ok.inj ((fetch_timeseries_empty hE).symm.trans h1).symm
  · exact Except.ok.inj ((fetch_timeseries_empty hE).symm.trans h2).symm
  · exact Except.ok.inj ((fetch_timeseries_empty hE).symm.trans h3).symm
  · exact Except.ok.inj ((fetch_timeseries_empty hE).symm.trans h4).symm
  · exact Except.ok.inj ((fetch_timeseries_empty hE).symm.trans h5).symm
  · exact Except.ok.inj ((fetch_timeseries_empty hE).symm.trans h6).symm
  · exact Except.ok.inj ((fetch_timeseries_empty hE).symm.trans h7).symm
  · exact Except.ok.inj ((fetch_timeseries_empty hE).symm.trans h8).symm

end Solarize

namespace Solarize

/-- A one-result store: its metadata row and empty metric tables. -/
def c10db : DB :=
  { meta := [⟨1, "sim", "demo", 5, .num 1, .num 0, .jsonText .null, .nullv⟩]
    ac_aoi := []
    airmass := []
    cell_temperature := []
    dc_output := []
    diode_params := []
    total_irradiance := []
    solar_position := []
    weather := [] }

/-- C10 at the concrete store `c10db`, `result_id = 1` (the schema assignment
is irrelevant here: every metric table is empty). -/
theorem c10_fetch_result_dict_witness :
    ∃ d, fetch_modelchain_result (fun _ => []) c10db 1 = .ok (some d) ∧
      d = metaEntries ⟨1, "sim", "demo", 5, .num 1, .num 0, .jsonText .null, .nullv⟩ ++
        [("ac_aoi", .ts none), ("airmass", .ts none),
         ("cell_temperature", .ts none), ("dc", .ts none),
         ("diode_params", .ts none), ("irradiance", .ts none),
         ("solar_position", .ts none), ("weather", .ts none)] ∧
      d.map Prod.fst =
        ["simulation_name", "description", "created_at", "albedo", "losses",
         "spectral_modifier", "tracking", "ac_aoi", "airmass",
         "cell_temperature", "dc", "diode_params", "irradiance",
         "solar_position", "weather"] ∧
      ((ridRows c10db.ac_aoi 1).isEmpty → (none : Option (OneOrMany QFrame)) = none) ∧
      ((ridRows c10db.airmass 1).isEmpty → (none : Option (OneOrMany QFrame)) = none) ∧
      ((ridRows c10db.cell_temperature 1).isEmpty → (none : Option (OneOrMany QFrame)) = none) ∧
      ((ridRows c10db.dc_output 1).isEmpty → (none : Option (OneOrMany QFrame)) = none) ∧
      ((ridRows c10db.diode_params 1).isEmpty → (none : Option (OneOrMany QFrame)) = none) ∧
      ((ridRows c10db.total_irradiance 1).isEmpty → (none : Option (OneOrMany QFrame)) = none) ∧
      ((ridRows c10db.solar_position 1).isEmpty → (none : Option (OneOrMany QFrame)) = none) ∧
      ((ridRows c10db.weather 1).isEmpty → (none : Option (OneOrMany QFrame)) = none) :=
  c10_fetch_result_dict (fun _ => []) c10db 1
    ⟨1, "sim", "demo", 5, .num 1, .num 0, .jsonText .null, .nullv⟩
    none none none none none none none none
    rfl rfl rfl rfl rfl rfl rfl rfl rfl

end Solarize

namespace Solarize

/-- A store whose metadata row exists for result 1 but whose `ac_aoi` table
holds one row with a NULL `array_name` — exactly what a save leaves behind
when the `array_names` map has no entry for the array index
(`array_names.get(str(idx))` at `manager.py` line 89 returns `None`). -/
def c10badDb : DB :=
  { meta := [⟨1, "sim", "demo", 5, .num 1, .num 0, .jsonText .null, .nullv⟩]
    ac_aoi := [⟨1, 0, none, [("ac", some 5)]⟩]
    airmass := []
    cell_temperature := []
    dc_output := []
    diode_params := []
    total_irradiance := []
    solar_position := []
    weather := [] }

/-- C10 counterexample: the claim as stated is false. For a `result_id` whose
metadata row exists but whose (nonempty) `ac_aoi` rows all carry NULL
`array_name`, `groupby("array_name")` drops every row, `array_groups[0]`
raises `IndexError`, and `fetch_modelchain_result` raises instead of
returning any dict at all. -/
theorem c10_fetch_result_dict_counterexample :
    fetch_modelchain_result (fun _ => ac_aoi_cols) c10badDb 1 =
      .error "IndexError: list index out of range" ∧
    ∀ d : Option (List (String × Entry)),
      fetch_modelchain_result (fun _ => ac_aoi_cols) c10badDb 1 ≠ .ok d := by
  refine ⟨rfl, fun d h => ?_⟩
  have h1 : fetch_modelchain_result (fun _ => ac_aoi_cols) c10badDb 1 =
      .error "IndexError: list index out of range" := rfl
  rw [h1] at h
  simp at h

end Solarize
